import Mathlib

/-!
# PShell job control: a shallow embedding

The job table (`Vec.c`), the builtins `jobs`, `fg`, `bg` and the synchronous
reaper (`jobs.c`), the pipeline executor (`exec.c`) and the asynchronous
reaper (`penn-shell.c`) as Lean functions.

Conventions of the embedding.

* A `job*` that points into the table is the index of its slot; a function that
  works through a `job*` takes the record and returns the updated record, and
  the caller stores it back into the slot.
* Everything the shell does to the outside world (text written, signals sent,
  terminal hand-over, waits issued, destructor calls) is appended, in program
  order, to a trace of `event`s.
* Everything the outside world answers (return values of `killpg`, `tcsetpgrp`,
  `waitpid`, `fork`, `pipe2`, `isatty`, `getpgrp`) is read from an `os` record.
* A C function that can end the process (`panic`, `exit`) returns an `Option`;
  `none` is the terminated process.
-/

namespace PShell

/-! ## Data model (`parser.h`, `Job.h`, `Vec.c`) -/

/-- The parsed pipeline of `parser.h`, reduced to the fields the job-control
code reads: the background flag and `commands[i]`, the argument vector of
stage `i` (without its terminating `NULL`). -/
structure parsed_command where
  is_background : Bool
  commands : List (List String)
deriving DecidableEq, Repr

/-- The field `num_commands`: the number of entries of `commands`. -/
def parsed_command.num_commands (cmd : parsed_command) : Nat :=
  cmd.commands.length

/-- The record `struct job_st` of `Job.h`; `pids` is the C array `pid_t* pids`. -/
structure job where
  id : Nat
  cmd : parsed_command
  pids : List Int
  is_background : Bool
  is_completed : Bool
  is_stopped : Bool
  num_processes : Nat
deriving DecidableEq, Repr

/-- The vector of `Vec.c`: `data` holds the slots `0 .. length-1`, `has_dtor`
says whether `ele_dtor_fn` is not `NULL`. -/
structure Vec (α : Type) where
  data : List α
  capacity : Nat
  has_dtor : Bool
deriving DecidableEq, Repr

/-- The field `length`. -/
def Vec.length {α : Type} (self : Vec α) : Nat :=
  self.data.length

/-- The signals the shell sends. -/
inductive signal
  | SIGCONT
  | SIGTSTP
deriving DecidableEq, Repr

/-- What `WIFEXITED`, `WIFSIGNALED`, `WIFSTOPPED` decode from an `int status`;
`other` is a status for which none of the three holds. -/
inductive wstatus
  | exited
  | signaled
  | stopped
  | other
deriving DecidableEq, Repr

/-- The answer of one blocking `waitpid(pid, &status, WUNTRACED)`: a negative
return value (with `errno == ECHILD` or not) or a status. -/
inductive wait_result
  | error (errno_is_echild : Bool)
  | ok (status : wstatus)
deriving DecidableEq, Repr

/-- One observable action of the shell. -/
inductive event
  | stdout (text : String)
  | stderr (text : String)
  | perror (what : String)
  | killpg (pgid : Int) (sig : signal)
  | tcsetpgrp (pgid : Int)
  | setpgid (pid : Int) (pgid : Int)
  | waitpid (pid : Int)
  | free_job (j : job)
  | print_parsed_command (cmd : parsed_command)
deriving DecidableEq, Repr

/-- The answers of the operating system during one call into the shell.
`waitpid k` is the answer to the blocking wait issued for stage `k` of the job
being waited on, `fork k` the return value of the `fork` for stage `k`,
`pipe2 k` the return value of the call creating pipe `k`. -/
structure os where
  isatty : Bool
  getpgrp : Int
  killpg : Int → signal → Int
  tcsetpgrp : Int → Int
  waitpid : Nat → wait_result
  fork : Nat → Int
  pipe2 : Nat → Int

/-- The state of the shell process: the global `jobs`, what it has done so
far, and the process group that owns the terminal. -/
structure shell where
  jobs : Vec job
  trace : List event
  term_owner : Int
deriving DecidableEq, Repr

/-- Append events to the trace. -/
def shell.emit (sh : shell) (evs : List event) : shell :=
  { sh with trace := sh.trace ++ evs }

/-- Store a job record back through its pointer: slot `i` of the table. -/
def shell.store (sh : shell) (i : Nat) (j : job) : shell :=
  { sh with jobs := { sh.jobs with data := sh.jobs.data.set i j } }

/-- The read `pids[k]` of a C array (an index past the end reads 0 here). -/
def pid_at (pids : List Int) (k : Nat) : Int :=
  pids.getD k 0

/-! ## `Vec.c` -/

/-- The function `vec_new`: `none` is the panic on a capacity above `UINT32_MAX`. -/
def vec_new {α : Type} (initial_capacity : Nat) (has_dtor : Bool) : Option (Vec α) :=
  if initial_capacity > 4294967295 then none
  else some { data := [], capacity := initial_capacity, has_dtor := has_dtor }

/-- The function `vec_get`: `none` is the panic on an index out of bounds. -/
def vec_get {α : Type} (self : Vec α) (index : Nat) : Option α :=
  self.data[index]?

/-- The copy loop of `vec_resize`: returns the copied elements and, in call
order, the elements handed to `ele_dtor_fn`. -/
def vec_resize_copy {α : Type} (has_dtor : Bool) : List α → List α × List α
  | [] => ([], [])
  | x :: xs =>
    let r := vec_resize_copy has_dtor xs
    (x :: r.1, if has_dtor then x :: r.2 else r.2)

/-- The function `vec_resize`: the vector after the call and the elements the destructor
was called on. -/
def vec_resize {α : Type} (self : Vec α) (new_capacity : Nat) : Vec α × List α :=
  if new_capacity ≤ self.length then (self, [])
  else
    let r := vec_resize_copy self.has_dtor self.data
    ({ self with data := r.1, capacity := new_capacity }, r.2)

/-- The function `vec_push_back`: the vector after the call and the elements the destructor
was called on. -/
def vec_push_back {α : Type} (self : Vec α) (new_ele : α) : Vec α × List α :=
  let len := self.length
  let capacity := self.capacity
  let r := if len = capacity then
      vec_resize self (if capacity = 0 then 1 else capacity * 2)
    else (self, [])
  ({ r.1 with data := r.1.data ++ [new_ele] }, r.2)

/-- The function `vec_erase`: `none` is the panic on an index out of bounds; otherwise the
vector with the slot closed up and the elements the destructor was called on. -/
def vec_erase {α : Type} (self : Vec α) (index : Nat) : Option (Vec α × List α) :=
  match self.data[index]? with
  | none => none
  | some x =>
    some ({ self with data := self.data.eraseIdx index }, if self.has_dtor then [x] else [])

/-! ## Lookup (`jobs.c`, lines 19-52) -/

/-- The loop of `find_job_by_id` from slot `i` on. -/
def find_job_by_id_loop (job_id : Nat) : List job → Nat → Option (Nat × job)
  | [], _ => none
  | curj :: rest, i =>
    if curj.id = job_id then some (i, curj) else find_job_by_id_loop job_id rest (i + 1)

/-- The function `find_job_by_id`: the slot and record of the first job with that id. -/
def find_job_by_id (jobs : Vec job) (job_id : Nat) : Option (Nat × job) :=
  find_job_by_id_loop job_id jobs.data 0

/-- The first loop of `get_current_job`, `for (i = jobs.length; i > 0; i--)`,
with `i` slots still to visit. -/
def last_stopped_loop (jobs : Vec job) : Nat → Option (Nat × job)
  | 0 => none
  | i + 1 =>
    match vec_get jobs i with
    | none => none
    | some curj => if curj.is_stopped then some (i, curj) else last_stopped_loop jobs i

/-- The second loop of `get_current_job`. -/
def last_not_completed_loop (jobs : Vec job) : Nat → Option (Nat × job)
  | 0 => none
  | i + 1 =>
    match vec_get jobs i with
    | none => none
    | some curj =>
      if !curj.is_completed then some (i, curj) else last_not_completed_loop jobs i

/-- The function `get_current_job`. -/
def get_current_job (jobs : Vec job) : Option (Nat × job) :=
  match last_stopped_loop jobs jobs.length with
  | some r => some r
  | none => last_not_completed_loop jobs jobs.length

/-! ## Printing (`jobs.c`, lines 75-127) -/

/-- The inner loop of `print_job_command`: the arguments of one stage,
separated by one blank. -/
def print_args : List String → String
  | [] => ""
  | [a] => a
  | a :: b :: rest => a ++ " " ++ print_args (b :: rest)

/-- The outer loop of `print_job_command`: the stages, separated by `" | "`. -/
def print_stages : List (List String) → String
  | [] => ""
  | [args] => print_args args
  | args :: more :: rest => print_args args ++ " | " ++ print_stages (more :: rest)

/-- The function `print_job_command`: the text it writes to standard output. -/
def print_job_command (j : job) : String :=
  print_stages j.cmd.commands

/-- The function `print_job_status`. -/
def print_job_status (j : job) : List event :=
  if j.is_completed then []
  else
    [event.stdout ("[" ++ toString j.id ++ "] " ++ print_job_command j ++ " ("
      ++ (if j.is_stopped then "stopped" else "running") ++ ")\n")]

/-- The function `print_job_status_change`. -/
def print_job_status_change (j : job) (status : String) : List event :=
  [event.stdout (status ++ ": " ++ print_job_command j ++ "\n")]

/-! ## Job-id arguments: `strtol(args[1], &endptr, 10)` -/

/-- The C library's `isspace` in the C locale. -/
def isspace (c : Char) : Bool :=
  c = ' ' || (9 ≤ c.toNat && c.toNat ≤ 13)

/-- The white space `strtol` skips first. -/
def skip_space : List Char → List Char
  | [] => []
  | c :: cs => if isspace c then skip_space cs else c :: cs

/-- The digits `strtol` consumes: the number read so far and the rest. -/
def strtol_digits : List Char → Nat → Nat × List Char
  | [], acc => (acc, [])
  | c :: cs, acc =>
    if c.isDigit then strtol_digits cs (acc * 10 + (c.toNat - 48)) else (acc, c :: cs)

/-- The bound `LONG_MAX` of a 64-bit `long`. -/
def LONG_MAX : Int := 9223372036854775807

/-- The bound `LONG_MIN` of a 64-bit `long`. -/
def LONG_MIN : Int := -9223372036854775808

/-- The C library's `strtol(nptr, &endptr, 10)` on a C string (its characters
up to the terminating NUL): the value returned and the text `endptr` points
at. White space, then an optional sign, then decimal digits; the value is
clamped to the range of `long`; with no digit at all the value is 0 and
`endptr` is `nptr`. -/
def strtol (nptr : List Char) : Int × List Char :=
  let s := skip_space nptr
  let t := if s.head? = some '-' ∨ s.head? = some '+' then s.tail else s
  match t with
  | [] => (0, nptr)
  | c :: _ =>
    if c.isDigit then
      let r := strtol_digits t 0
      let v : Int := if s.head? = some '-' then -(r.1 : Int) else (r.1 : Int)
      (max LONG_MIN (min LONG_MAX v), r.2)
    else (0, nptr)

/-- The cast `(jid_t)` of a `long` to `uint64_t`. -/
def to_jid (v : Int) : Nat :=
  (v % 18446744073709551616).toNat

/-- Lines 223-245 of `bg_builtin` and 301-323 of `fg_builtin`, which differ
only in the builtin's name in the messages: the slot and record of the job the
builtin works on, or the message it writes to standard error before it
returns `false`. -/
def resolve_job (name : String) (args : List String) (jobs : Vec job) :
    Except String (Nat × job) :=
  match args[1]? with
  | some arg =>
    if (strtol arg.toList).2 ≠ [] then
      Except.error (name ++ ": invalid job id: " ++ arg ++ "\n")
    else
      match find_job_by_id jobs (to_jid (strtol arg.toList).1) with
      | none => Except.error (name ++ ": no such job: " ++ arg ++ "\n")
      | some r => Except.ok r
  | none =>
    match get_current_job jobs with
    | none => Except.error (name ++ ": no current job\n")
    | some r => Except.ok r

/-! ## Job control (`jobs.c`, lines 137-351) -/

/-- The function `give_terminal_control`. -/
def give_terminal_control (o : os) (pgid : Int) (sh : shell) : Bool × shell :=
  if !o.isatty then (true, sh)
  else if o.tcsetpgrp pgid < 0 then
    (false, sh.emit [event.tcsetpgrp pgid, event.perror "tcsetpgrp"])
  else (true, { sh.emit [event.tcsetpgrp pgid] with term_owner := pgid })

/-- The loop of `is_job_completed` from stage `i` on, `n` stages to go. -/
def is_job_completed_loop (pids : List Int) : Nat → Nat → Bool
  | 0, _ => true
  | n + 1, i => if pid_at pids i ≠ -1 then false else is_job_completed_loop pids n (i + 1)

/-- The function `is_job_completed`. -/
def is_job_completed (j : job) : Bool :=
  is_job_completed_loop j.pids j.num_processes 0

/-- The function `continue_job`: its return value, the job record after the call and the
events of the call. -/
def continue_job (o : os) (j : job) (is_foreground : Bool) : Bool × job × List event :=
  let pgid := pid_at j.pids 0
  if o.killpg pgid signal.SIGCONT < 0 then
    (false, j, [event.killpg pgid signal.SIGCONT, event.perror "killpg"])
  else
    let j1 := { j with is_stopped := false }
    if !is_foreground then
      let j2 := { j1 with is_background := true }
      (true, j2, [event.killpg pgid signal.SIGCONT] ++ print_job_status_change j2 "Running")
    else (true, j1, [event.killpg pgid signal.SIGCONT])

/-- The loop of `jobs_builtin` over the table. -/
def jobs_builtin_loop : List job → List event
  | [] => []
  | curj :: rest =>
    (if !curj.is_completed then print_job_status curj else []) ++ jobs_builtin_loop rest

/-- The function `jobs_builtin`. -/
def jobs_builtin (sh : shell) : shell :=
  sh.emit (jobs_builtin_loop sh.jobs.data)

/-- The function `bg_builtin`. -/
def bg_builtin (o : os) (args : List String) (sh : shell) : Bool × shell :=
  match resolve_job "bg" args sh.jobs with
  | Except.error msg => (false, sh.emit [event.stderr msg])
  | Except.ok (i, curj) =>
    if !curj.is_stopped then
      (false, sh.emit [event.stderr ("bg: job " ++ toString curj.id ++ " is already running\n")])
    else
      let r := continue_job o curj false
      (r.1, (sh.store i r.2.1).emit r.2.2)

/-- The loop of `wait_for_job` from stage `i` on, `n` stages to go: the job
record after the loop and the events of the loop. `wait_for_process` reports
a failed wait unless `errno` is `ECHILD`. -/
def wait_for_job_loop (o : os) : Nat → Nat → job → job × List event
  | 0, _, j => (j, [])
  | n + 1, i, j =>
    if pid_at j.pids i = -1 then wait_for_job_loop o n (i + 1) j
    else
      match o.waitpid i with
      | wait_result.error errno_is_echild =>
        (j, [event.waitpid (pid_at j.pids i)]
              ++ (if errno_is_echild then [] else [event.perror "waitpid"]))
      | wait_result.ok status =>
        if status = wstatus.stopped then
          let j1 := { j with is_stopped := true }
          (j1, [event.waitpid (pid_at j.pids i)] ++ print_job_status_change j1 "Stopped")
        else if status = wstatus.exited ∨ status = wstatus.signaled then
          let j1 := { j with pids := j.pids.set i (-1) }
          let j2 := if is_job_completed j1 then { j1 with is_completed := true } else j1
          let r := wait_for_job_loop o n (i + 1) j2
          (r.1, event.waitpid (pid_at j.pids i) :: r.2)
        else
          let r := wait_for_job_loop o n (i + 1) j
          (r.1, event.waitpid (pid_at j.pids i) :: r.2)

/-- The function `wait_for_job` on a job that is not `NULL`. -/
def wait_for_job (o : os) (j : job) : job × List event :=
  wait_for_job_loop o j.num_processes 0 j

/-- The function `fg_builtin`. -/
def fg_builtin (o : os) (args : List String) (sh : shell) : Bool × shell :=
  match resolve_job "fg" args sh.jobs with
  | Except.error msg => (false, sh.emit [event.stderr msg])
  | Except.ok (i, curj) =>
    let sh1 := sh.emit [event.stdout (print_job_command curj ++ "\n")]
    let sh2 := if curj.is_stopped then
        sh1.emit [event.stdout ("Restarting: " ++ print_job_command curj ++ "\n")]
      else sh1
    let sh3 := (give_terminal_control o (pid_at curj.pids 0) sh2).2
    let c := continue_job o curj true
    let sh4 := (sh3.store i c.2.1).emit c.2.2
    if !c.1 then (false, sh4)
    else
      let w := wait_for_job o c.2.1
      let sh5 := (sh4.store i w.1).emit w.2
      (true, (give_terminal_control o o.getpgrp sh5).2)

/-! ## The synchronous reaper (`jobs.c`, lines 416-480) -/

/-- The function `update_process_status` on a job that is not `NULL`. -/
def update_process_status (j : job) (process_index : Nat) (status : wstatus) : job :=
  if process_index ≥ j.num_processes then j
  else if status = wstatus.exited ∨ status = wstatus.signaled then
    { j with pids := j.pids.set process_index (-1) }
  else if status = wstatus.stopped then { j with is_stopped := true }
  else j

/-- The function `check_job_completion` on a job that is not `NULL`. -/
def check_job_completion (j : job) : Bool :=
  is_job_completed j

/-- The loop over the stages of one job in `update_job_status` (lines
455-460) from stage `k` on, `n` stages to go: `found_pid` and the job record
after the loop. -/
def find_pid_loop (pid : Int) (status : wstatus) : Nat → Nat → job → Bool × job
  | 0, _, curj => (false, curj)
  | n + 1, k, curj =>
    if pid_at curj.pids k = pid then
      (true, (find_pid_loop pid status n (k + 1) (update_process_status curj k status)).2)
    else find_pid_loop pid status n (k + 1) curj

/-- The loop over the table in `update_job_status` (lines 450-478) for one
child-state change, from slot `i` on; `none` is a panic of `vec_erase`. -/
def update_job_status_scan (pid : Int) (status : wstatus) (sh : shell) :
    List job → Nat → Option shell
  | [], _ => some sh
  | curj :: rest, i =>
    let r := find_pid_loop pid status curj.num_processes 0 curj
    if r.1 then
      let sh1 := sh.store i r.2
      if status = wstatus.stopped then
        some (sh1.emit (print_job_status_change r.2 "Stopped"))
      else if status = wstatus.exited ∨ status = wstatus.signaled then
        if check_job_completion r.2 then
          let j1 := { r.2 with is_completed := true }
          let sh2 := sh1.store i j1
          let sh3 := if j1.is_background then
              sh2.emit (print_job_status_change j1 "Finished")
            else sh2
          match vec_erase sh3.jobs i with
          | none => none
          | some e => some ({ sh3 with jobs := e.1 }.emit (e.2.map event.free_job))
        else some sh1
      else some sh1
    else update_job_status_scan pid status sh rest (i + 1)

/-- The function `update_job_status`. `pending` lists the answers of the successive calls
`waitpid(-1, &status, WNOHANG | WUNTRACED)`, each a return value and a status;
after the last of them the call returns 0. The loop ends at the first return
value that is not positive. -/
def update_job_status : List (Int × wstatus) → shell → Option shell
  | [], sh => some (sh.emit [event.waitpid (-1)])
  | (pid, status) :: more, sh =>
    if pid > 0 then
      match update_job_status_scan pid status (sh.emit [event.waitpid (-1)]) sh.jobs.data 0 with
      | none => none
      | some sh1 => update_job_status more sh1
    else some (sh.emit [event.waitpid (-1)])

/-! ## The pipeline executor (`exec.c`) -/

/-- A point in the run of `wait_for_pipeline_completion`: the job record as it
is in memory and the events issued so far. -/
structure snapshot where
  jb : job
  events : List event
deriving DecidableEq, Repr

/-- The state of `wait_for_pipeline_completion` between two statements: the
present snapshot, the local `job_stopped`, and (as a record of the run) the
earlier snapshots, oldest first. -/
structure wait_state where
  now : snapshot
  job_stopped : Bool
  past : List snapshot
deriving DecidableEq, Repr

/-- One statement that issues events. -/
def wait_state.emit (s : wait_state) (evs : List event) : wait_state :=
  { now := { s.now with events := s.now.events ++ evs },
    job_stopped := s.job_stopped,
    past := s.past ++ [s.now] }

/-- One statement that writes the job record. -/
def wait_state.set_job (s : wait_state) (j : job) : wait_state :=
  { now := { s.now with jb := j },
    job_stopped := s.job_stopped,
    past := s.past ++ [s.now] }

/-- Every snapshot of a run, oldest first, the present one last. -/
def wait_state.snapshots (s : wait_state) : List snapshot :=
  s.past ++ [s.now]

/-- The inner loop of `wait_for_pipeline_completion` (lines 171-177) from
stage `j` on, `n` stages to go. -/
def wait_rest_loop (o : os) (pids : List Int) : Nat → Nat → wait_state → wait_state
  | 0, _, s => s
  | n + 1, j, s =>
    let s1 := s.emit [event.waitpid (pid_at pids j)]
    match o.waitpid j with
    | wait_result.error _ => wait_rest_loop o pids n (j + 1) (s1.emit [event.perror "waitpid"])
    | wait_result.ok _ => wait_rest_loop o pids n (j + 1) s1

/-- The outer loop of `wait_for_pipeline_completion` (lines 155-180) from
stage `i` on, `n` stages to go. -/
def wait_for_pipeline_loop (o : os) (pids : List Int) : Nat → Nat → wait_state → wait_state
  | 0, _, s => s
  | n + 1, i, s =>
    let s1 := s.emit [event.waitpid (pid_at pids i)]
    match o.waitpid i with
    | wait_result.error _ =>
      wait_for_pipeline_loop o pids n (i + 1) (s1.emit [event.perror "waitpid"])
    | wait_result.ok status =>
      if status = wstatus.stopped then
        let s2 := s1.emit [event.stdout "\n"]
        let s3 := { s2 with job_stopped := true }
        let s4 := s3.set_job { s3.now.jb with is_stopped := true }
        wait_rest_loop o pids n (i + 1) s4
      else wait_for_pipeline_loop o pids n (i + 1) s1

/-- The function `wait_for_pipeline_completion`: the state it returns in; its `now` holds
the job record after the call and the events of the call. -/
def wait_for_pipeline_completion (o : os) (num_cmds : Nat) (pids : List Int) (jb : job) :
    wait_state :=
  let s := wait_for_pipeline_loop o pids num_cmds 0
    { now := { jb := jb, events := [] }, job_stopped := false, past := [] }
  if s.job_stopped then
    (s.emit [event.killpg (pid_at pids 0) signal.SIGTSTP]).emit
      (print_job_status_change s.now.jb "Stopped")
  else s

/-- The function `create_pipes` from pipe `i` on, `n` pipes to go: `false` when a call
fails, upon which the process exits. -/
def create_pipes (o : os) : Nat → Nat → Bool
  | 0, _ => true
  | n + 1, i => if o.pipe2 i < 0 then false else create_pipes o n (i + 1)

/-- The fork loop of `execute_pipeline` (lines 221-252) in the parent, from
stage `i` on, `n` stages to go: the new job record and the events. `none`
when a `fork` returns a negative value (the shell exits) or 0 (the process is
the child, which never returns to the shell's loop). -/
def fork_loop (o : os) : Nat → Nat → job → Option (job × List event)
  | 0, _, new_job => some (new_job, [])
  | n + 1, i, new_job =>
    if o.fork i ≤ 0 then none
    else
      let j1 := { new_job with pids := new_job.pids.set i (o.fork i) }
      let ev := if i = 0 then event.setpgid (o.fork i) (o.fork i)
        else event.setpgid (o.fork i) (pid_at j1.pids 0)
      match fork_loop o n (i + 1) j1 with
      | none => none
      | some r => some (r.1, ev :: r.2)

/-- A bare `tcsetpgrp(STDIN_FILENO, pgid)` whose return value is ignored. -/
def tcsetpgrp (o : os) (pgid : Int) (sh : shell) : shell :=
  if o.tcsetpgrp pgid < 0 then sh.emit [event.tcsetpgrp pgid]
  else { sh.emit [event.tcsetpgrp pgid] with term_owner := pgid }

/-- The removal loop of `execute_pipeline` (lines 288-294) from slot `i` on:
erases the first job whose id is `id`; `none` is a panic of `vec_erase`. -/
def erase_by_id_loop (id : Nat) (sh : shell) : List job → Nat → Option shell
  | [], _ => some sh
  | curj :: rest, i =>
    if curj.id = id then
      match vec_erase sh.jobs i with
      | none => none
      | some e => some ({ sh with jobs := e.1 }.emit (e.2.map event.free_job))
    else erase_by_id_loop id sh rest (i + 1)

/-- The function `execute_pipeline` in the shell process. The new job's pointer `new_job`
is the slot `vec_push_back` stored it in, the last one. -/
def execute_pipeline (o : os) (cmd : parsed_command) (sh : shell) : Option shell :=
  let num_cmds := cmd.num_commands
  let shell_pgid := o.getpgrp
  let new_job : job :=
    { id := (sh.jobs.length + 1) % 18446744073709551616,
      cmd := cmd,
      pids := List.replicate num_cmds 0,
      is_background := cmd.is_background,
      is_completed := false,
      is_stopped := false,
      num_processes := num_cmds }
  let num_pipes := if num_cmds > 1 then num_cmds - 1 else 0
  if !create_pipes o num_pipes 0 then none
  else
    match fork_loop o num_cmds 0 new_job with
    | none => none
    | some f =>
      let p := vec_push_back sh.jobs f.1
      let slot := p.1.length - 1
      let sh1 := { sh.emit f.2 with jobs := p.1 }.emit (p.2.map event.free_job)
      let sh2 := if !cmd.is_background && o.isatty then tcsetpgrp o (pid_at f.1.pids 0) sh1
        else sh1
      if !cmd.is_background then
        let w := wait_for_pipeline_completion o num_cmds f.1.pids f.1
        let sh3 := (sh2.store slot w.now.jb).emit w.now.events
        if w.now.jb.is_stopped then
          some (if o.isatty then tcsetpgrp o shell_pgid sh3 else sh3)
        else
          let sh4 := if o.isatty then tcsetpgrp o shell_pgid sh3 else sh3
          let j1 := { w.now.jb with is_completed := true }
          let sh5 := sh4.store slot j1
          erase_by_id_loop j1.id sh5 sh5.jobs.data 0
      else
        some (sh2.emit [event.stdout "Running: ", event.print_parsed_command cmd])

/-! ## The asynchronous reaper (`penn-shell.c`, lines 55-99) -/

/-- The text of the macro `PROMPT`. -/
def PROMPT : String := "penn-shell# "

/-- The loop over the stages of one job in `async_sigchld_handler` (lines
64-72) from stage `j` on, `n` stages to go: `found`, `all_done` and the job
record after the loop. -/
def async_mark_loop (pid : Int) : Nat → Nat → job → Bool → Bool → Bool × Bool × job
  | 0, _, curj, found, all_done => (found, all_done, curj)
  | n + 1, j, curj, found, all_done =>
    let hit := decide (pid_at curj.pids j = pid)
    let curj1 := if hit then { curj with pids := curj.pids.set j (-1) } else curj
    let found1 := if hit then true else found
    let all_done1 := if pid_at curj1.pids j ≠ -1 then false else all_done
    async_mark_loop pid n (j + 1) curj1 found1 all_done1

/-- The loop over the table in `async_sigchld_handler` (lines 59-97) for one
child-state change, from slot `i` on; `none` is a panic of `vec_erase`. -/
def async_sigchld_scan (o : os) (pid : Int) (status : wstatus) (sh : shell) :
    List job → Nat → Option shell
  | [], _ => some sh
  | curj :: rest, i =>
    let r := async_mark_loop pid curj.num_processes 0 curj false true
    if r.1 then
      let sh1 := sh.store i r.2.2
      if status = wstatus.stopped then
        let j1 := { r.2.2 with is_stopped := true }
        some ((sh1.store i j1).emit
          ([event.stdout "\n"] ++ print_job_status_change j1 "Stopped"))
      else if status = wstatus.exited ∨ status = wstatus.signaled then
        if r.2.1 then
          let j1 := { r.2.2 with is_completed := true }
          let sh2 := sh1.store i j1
          let sh3 := if j1.is_background then
              sh2.emit ([event.stdout "\n"] ++ print_job_status_change j1 "Finished"
                ++ [event.stdout "\n"] ++ (if o.isatty then [event.stdout PROMPT] else []))
            else sh2
          match vec_erase sh3.jobs i with
          | none => none
          | some e => some ({ sh3 with jobs := e.1 }.emit (e.2.map event.free_job))
        else some sh1
      else some sh1
    else async_sigchld_scan o pid status sh rest (i + 1)

/-- The function `async_sigchld_handler`, run to its end on the table as it
finds it. `pending` lists the answers of the successive calls
`waitpid(-1, &status, WNOHANG | WUNTRACED)`, as for `update_job_status`. -/
def async_sigchld_handler (o : os) : List (Int × wstatus) → shell → Option shell
  | [], sh => some (sh.emit [event.waitpid (-1)])
  | (pid, status) :: more, sh =>
    if pid > 0 then
      match async_sigchld_scan o pid status (sh.emit [event.waitpid (-1)]) sh.jobs.data 0 with
      | none => none
      | some sh1 => async_sigchld_handler o more sh1
    else some (sh.emit [event.waitpid (-1)])

/-! ## Runs of the shell -/

/-- One call the main loop makes into the job-control code. -/
inductive op
  | execute_pipeline (o : os) (cmd : parsed_command)
  | update_job_status (pending : List (Int × wstatus))
  | fg_builtin (o : os) (args : List String)
  | bg_builtin (o : os) (args : List String)

/-- The shell after one call; `none` when the process ended in it. -/
def run_op : op → shell → Option shell
  | op.execute_pipeline o cmd, sh => execute_pipeline o cmd sh
  | op.update_job_status pending, sh => update_job_status pending sh
  | op.fg_builtin o args, sh => some (fg_builtin o args sh).2
  | op.bg_builtin o args, sh => some (bg_builtin o args sh).2

/-- The shell after a sequence of calls. -/
def run_ops : List op → shell → Option shell
  | [], sh => some sh
  | c :: more, sh =>
    match run_op c sh with
    | none => none
    | some sh1 => run_ops more sh1

/-- The shell as `main` sets it up: `jobs = vec_new(10, free_job)`, nothing
done yet, the terminal owned by the shell's own process group. -/
def initial_shell (shell_pgid : Int) : shell :=
  { jobs := { data := [], capacity := 10, has_dtor := true },
    trace := [],
    term_owner := shell_pgid }

/-! ## Vocabulary of the properties -/

/-- Whether an event is a `waitpid` call. -/
def is_wait : event → Bool
  | event.waitpid _ => true
  | _ => false

/-- The number of `waitpid` calls among the events. -/
def waits_issued (evs : List event) : Nat :=
  (evs.filter is_wait).length

/-- The events the two loops of `wait_for_pipeline_completion` issue: a wait,
the report of a failed wait, the newline written when a stop is seen. -/
def is_loop_event (e : event) : Prop :=
  is_wait e = true ∨ e = event.perror "waitpid" ∨ e = event.stdout "\n"

/-- The invariant of the loops of `wait_for_pipeline_completion` on a job `jb`
whose first stopped stage is `i`: `c` waits have been issued; `st` tells
whether the stop has been seen, and the job record is `jb` with `is_stopped`
set accordingly; every snapshot so far holds loop events only and, if its job
is marked stopped, at least `i + 1` waits; once the stop has been seen, some
snapshot is marked stopped with exactly `i + 1` waits. -/
def loop_inv (jb : job) (i c : Nat) (st : Bool) (s : wait_state) : Prop :=
  s.job_stopped = st ∧
  s.now.jb = { jb with is_stopped := st } ∧
  waits_issued s.now.events = c ∧
  (∀ t ∈ s.snapshots, (∀ e ∈ t.events, is_loop_event e) ∧
    (t.jb.is_stopped = true → i + 1 ≤ waits_issued t.events)) ∧
  (st = true → ∃ t ∈ s.snapshots, t.jb.is_stopped = true ∧ waits_issued t.events = i + 1)

/-- The pids of the `waitpid` calls among the events, in the order of the
calls. -/
def waited_pids : List event → List Int
  | [] => []
  | event.waitpid pid :: rest => pid :: waited_pids rest
  | _ :: rest => waited_pids rest

/-- The waits among the events are the waits on the stages `0, 1, 2, ...` of
the job with the array `pids`, one each, in stage order. -/
def waits_in_stage_order (pids : List Int) (evs : List event) : Prop :=
  waited_pids evs = (List.range (waits_issued evs)).map (pid_at pids)

/-- Every snapshot of the run so far has its waits in stage order. -/
def stage_inv (pids : List Int) (s : wait_state) : Prop :=
  ∀ t ∈ s.snapshots, waits_in_stage_order pids t.events

/-! ## Concrete inputs -/

/-- An operating system in which every call succeeds, every stage waited on
has exited, and stage `k` of a new pipeline gets pid `100 + k`. -/
def os_ok : os where
  isatty := true
  getpgrp := 1
  killpg := fun _ _ => 0
  tcsetpgrp := fun _ => 0
  waitpid := fun _ => wait_result.ok wstatus.exited
  fork := fun k => 100 + (k : Int)
  pipe2 := fun _ => 0

/-- The system `os_ok` with stage `k` of a new pipeline given pid `base + k`. -/
def os_fork (base : Int) : os :=
  { os_ok with fork := fun k => base + (k : Int) }

/-- The system `os_ok` with stage 0 of the job waited on reporting a stop (every later
stage has exited). -/
def os_stop_first : os :=
  { os_ok with
    waitpid := fun k => if k = 0 then wait_result.ok wstatus.stopped
      else wait_result.ok wstatus.exited }

/-- The foreground pipeline `ls`. -/
def cmd_ls : parsed_command :=
  { is_background := false, commands := [["ls"]] }

/-- The background pipeline `sleep 5 | cat &`. -/
def cmd_sleep_cat : parsed_command :=
  { is_background := true, commands := [["sleep", "5"], ["cat"]] }

/-- A stopped one-stage job with id 1 and pid 100. -/
def job_stopped : job :=
  { id := 1, cmd := cmd_ls, pids := [100], is_background := false,
    is_completed := false, is_stopped := true, num_processes := 1 }

/-- A running two-stage background job with id 2 and pids 200, 201. -/
def job_running : job :=
  { id := 2, cmd := cmd_sleep_cat, pids := [200, 201], is_background := true,
    is_completed := false, is_stopped := false, num_processes := 2 }

/-- A shell whose table holds `job_stopped` and `job_running`, in that order. -/
def shell_two : shell :=
  { jobs := { data := [job_stopped, job_running], capacity := 10, has_dtor := true },
    trace := [],
    term_owner := 1 }

/-- A new two-stage foreground job with pids 100, 101, as `execute_pipeline`
hands it to `wait_for_pipeline_completion`. -/
def job_pair : job :=
  { id := 1, cmd := { is_background := false, commands := [["cat"], ["wc"]] },
    pids := [100, 101], is_background := false, is_completed := false,
    is_stopped := false, num_processes := 2 }

/-- Three calls of the main loop from the empty table: launch `sleep 5 | cat &`
twice (pids 100, 101 and 200, 201), then reap both stages of the first job. -/
def ops_two_launched_one_reaped : List op :=
  [op.execute_pipeline (os_fork 100) cmd_sleep_cat,
   op.execute_pipeline (os_fork 200) cmd_sleep_cat,
   op.update_job_status [(100, wstatus.exited), (101, wstatus.exited)]]

/-- The table `ops_two_launched_one_reaped` leads to: the second job alone. -/
def shell_one_left : shell :=
  { jobs := { data := [job_running], capacity := 10, has_dtor := true },
    trace :=
      [event.setpgid 100 100, event.setpgid 101 100, event.stdout "Running: ",
       event.print_parsed_command cmd_sleep_cat,
       event.setpgid 200 200, event.setpgid 201 200, event.stdout "Running: ",
       event.print_parsed_command cmd_sleep_cat,
       event.waitpid (-1), event.waitpid (-1),
       event.stdout "Finished: sleep 5 | cat\n",
       event.free_job
         { id := 1, cmd := cmd_sleep_cat, pids := [-1, -1], is_background := true,
           is_completed := true, is_stopped := false, num_processes := 2 },
       event.waitpid (-1)],
    term_owner := 1 }

/-- The system `os_ok` with every `killpg` failing. -/
def os_kill_fails : os :=
  { os_ok with killpg := fun _ _ => -1 }

/-- The system `os_ok` with `killpg` and `tcsetpgrp` failing on a process
group id that is not positive. -/
def os_posix : os :=
  { os_ok with
    killpg := fun pgid _ => if pgid ≤ 0 then -1 else 0
    tcsetpgrp := fun pgid => if pgid ≤ 0 then -1 else 0 }

/-- The background pipeline `sleep 5 &`. -/
def cmd_sleep : parsed_command :=
  { is_background := true, commands := [["sleep", "5"]] }

/-- Whether an event is a call of the destructor `free_job`. -/
def is_free_job : event → Bool
  | event.free_job _ => true
  | _ => false

/-- Three calls of the main loop from the empty table: launch `sleep 5 | cat &`
(pids 100, 101), reap stage 0, which has exited, then see stage 1 stop. -/
def ops_first_stage_reaped : List op :=
  [op.execute_pipeline (os_fork 100) cmd_sleep_cat,
   op.update_job_status [(100, wstatus.exited)],
   op.update_job_status [(101, wstatus.stopped)]]

/-- Eleven launches of `sleep 5 &` from the empty table, with pids 100, 110,
and so on to 200. -/
def ops_eleven_launched : List op :=
  (List.range 11).map (fun k => op.execute_pipeline (os_fork (100 + 10 * (k : Int))) cmd_sleep)

/-! # Properties -/

/-! ## `get_current_job` -/

theorem last_stopped_loop_none (jobs : Vec job) :
    ∀ n, (∀ k j, k < n → jobs.data[k]? = some j → j.is_stopped = false) →
      last_stopped_loop jobs n = none := by
  intro n
  induction n with
  | zero => intro _; rfl
  | succ n ih =>
    intro h
    unfold last_stopped_loop vec_get
    cases hget : jobs.data[n]? with
    | none => rfl
    | some curj =>
      have hs := h n curj (Nat.lt_succ_self n) hget
      simp only [hs]
      exact ih (fun k j hk hj => h k j (Nat.lt_succ_of_lt hk) hj)

theorem last_stopped_loop_some (jobs : Vec job) :
    ∀ n, n ≤ jobs.length →
      (∃ k j, k < n ∧ jobs.data[k]? = some j ∧ j.is_stopped = true) →
      ∃ i j, last_stopped_loop jobs n = some (i, j) ∧ i < n ∧ jobs.data[i]? = some j ∧
        j.is_stopped = true ∧
        ∀ k j2, i < k → k < n → jobs.data[k]? = some j2 → j2.is_stopped = false := by
  intro n
  induction n with
  | zero => rintro _ ⟨k, j, hk, _⟩; exact absurd hk (Nat.not_lt_zero k)
  | succ n ih =>
    rintro hn ⟨k, j, hk, hj, hs⟩
    have hlt : n < jobs.data.length := hn
    obtain ⟨curj, hget⟩ : ∃ curj, jobs.data[n]? = some curj :=
      ⟨jobs.data[n], List.getElem?_eq_getElem hlt⟩
    unfold last_stopped_loop vec_get
    simp only [hget]
    cases hc : curj.is_stopped with
    | true =>
      refine ⟨n, curj, by simp, Nat.lt_succ_self n, hget, hc, ?_⟩
      intro k2 j2 h1 h2 _
      omega
    | false =>
      have hkn : k < n := by
        rcases Nat.lt_succ_iff_lt_or_eq.mp hk with h | h
        · exact h
        · subst h
          rw [hget] at hj
          cases hj
          rw [hc] at hs
          cases hs
      obtain ⟨i, j1, h1, h2, h3, h4, h5⟩ := ih (Nat.le_of_succ_le hn) ⟨k, j, hkn, hj, hs⟩
      refine ⟨i, j1, by simpa using h1, Nat.lt_succ_of_lt h2, h3, h4, ?_⟩
      intro k2 j2 hik hk2 hj2
      rcases Nat.lt_succ_iff_lt_or_eq.mp hk2 with h | h
      · exact h5 k2 j2 hik h hj2
      · subst h
        rw [hget] at hj2
        cases hj2
        exact hc

theorem last_not_completed_loop_none (jobs : Vec job) :
    ∀ n, (∀ k j, k < n → jobs.data[k]? = some j → j.is_completed = true) →
      last_not_completed_loop jobs n = none := by
  intro n
  induction n with
  | zero => intro _; rfl
  | succ n ih =>
    intro h
    unfold last_not_completed_loop vec_get
    cases hget : jobs.data[n]? with
    | none => rfl
    | some curj =>
      have hs := h n curj (Nat.lt_succ_self n) hget
      simp only [hs]
      exact ih (fun k j hk hj => h k j (Nat.lt_succ_of_lt hk) hj)

theorem last_not_completed_loop_some (jobs : Vec job) :
    ∀ n, n ≤ jobs.length →
      (∃ k j, k < n ∧ jobs.data[k]? = some j ∧ j.is_completed = false) →
      ∃ i j, last_not_completed_loop jobs n = some (i, j) ∧ i < n ∧ jobs.data[i]? = some j ∧
        j.is_completed = false ∧
        ∀ k j2, i < k → k < n → jobs.data[k]? = some j2 → j2.is_completed = true := by
  intro n
  induction n with
  | zero => rintro _ ⟨k, j, hk, _⟩; exact absurd hk (Nat.not_lt_zero k)
  | succ n ih =>
    rintro hn ⟨k, j, hk, hj, hs⟩
    have hlt : n < jobs.data.length := hn
    obtain ⟨curj, hget⟩ : ∃ curj, jobs.data[n]? = some curj :=
      ⟨jobs.data[n], List.getElem?_eq_getElem hlt⟩
    unfold last_not_completed_loop vec_get
    simp only [hget]
    cases hc : curj.is_completed with
    | false =>
      refine ⟨n, curj, by simp, Nat.lt_succ_self n, hget, hc, ?_⟩
      intro k2 j2 h1 h2 _
      omega
    | true =>
      have hkn : k < n := by
        rcases Nat.lt_succ_iff_lt_or_eq.mp hk with h | h
        · exact h
        · subst h
          rw [hget] at hj
          cases hj
          rw [hc] at hs
          cases hs
      obtain ⟨i, j1, h1, h2, h3, h4, h5⟩ := ih (Nat.le_of_succ_le hn) ⟨k, j, hkn, hj, hs⟩
      refine ⟨i, j1, by simpa using h1, Nat.lt_succ_of_lt h2, h3, h4, ?_⟩
      intro k2 j2 hik hk2 hj2
      rcases Nat.lt_succ_iff_lt_or_eq.mp hk2 with h | h
      · exact h5 k2 j2 hik h hj2
      · subst h
        rw [hget] at hj2
        cases hj2
        exact hc

/-- A job of the table sits in a slot below `length`. -/
theorem mem_data_slot (jobs : Vec job) (j : job) (h : j ∈ jobs.data) :
    ∃ k, k < jobs.length ∧ jobs.data[k]? = some j := by
  obtain ⟨k, hk, hkj⟩ := List.getElem_of_mem h
  exact ⟨k, hk, by rw [List.getElem?_eq_getElem hk, hkj]⟩

/-- C1: `get_current_job` returns the slot latest in table order whose job has
`is_stopped` set, if any job is stopped; otherwise the slot latest in table
order whose job has `is_completed` clear; it returns `NULL` exactly when no
job is stopped and every job is completed. -/
theorem get_current_job_spec (jobs : Vec job) :
    ((∃ j ∈ jobs.data, j.is_stopped = true) →
      ∃ i j, get_current_job jobs = some (i, j) ∧ jobs.data[i]? = some j ∧
        j.is_stopped = true ∧
        ∀ k j2, i < k → jobs.data[k]? = some j2 → j2.is_stopped = false) ∧
    ((∀ j ∈ jobs.data, j.is_stopped = false) → (∃ j ∈ jobs.data, j.is_completed = false) →
      ∃ i j, get_current_job jobs = some (i, j) ∧ jobs.data[i]? = some j ∧
        j.is_completed = false ∧
        ∀ k j2, i < k → jobs.data[k]? = some j2 → j2.is_completed = true) ∧
    (get_current_job jobs = none ↔
      ∀ j ∈ jobs.data, j.is_stopped = false ∧ j.is_completed = true) := by
  have inb : ∀ k (j2 : job), jobs.data[k]? = some j2 → k < jobs.length := by
    intro k j2 h
    by_contra hk
    rw [List.getElem?_eq_none (Nat.le_of_not_lt hk)] at h
    cases h
  have stopped_case : (∃ j ∈ jobs.data, j.is_stopped = true) →
      ∃ i j, get_current_job jobs = some (i, j) ∧ jobs.data[i]? = some j ∧
        j.is_stopped = true ∧
        ∀ k j2, i < k → jobs.data[k]? = some j2 → j2.is_stopped = false := by
    rintro ⟨j, hj, hs⟩
    obtain ⟨k, hk, hkj⟩ := mem_data_slot jobs j hj
    obtain ⟨i, j1, h1, _, h3, h4, h5⟩ :=
      last_stopped_loop_some jobs jobs.length (Nat.le_refl _) ⟨k, j, hk, hkj, hs⟩
    refine ⟨i, j1, ?_, h3, h4, fun k2 j2 hik hj2 => h5 k2 j2 hik (inb k2 j2 hj2) hj2⟩
    unfold get_current_job
    rw [h1]
  have running_case : (∀ j ∈ jobs.data, j.is_stopped = false) →
      (∃ j ∈ jobs.data, j.is_completed = false) →
      ∃ i j, get_current_job jobs = some (i, j) ∧ jobs.data[i]? = some j ∧
        j.is_completed = false ∧
        ∀ k j2, i < k → jobs.data[k]? = some j2 → j2.is_completed = true := by
    rintro hall ⟨j, hj, hc⟩
    obtain ⟨k, hk, hkj⟩ := mem_data_slot jobs j hj
    have hnone := last_stopped_loop_none jobs jobs.length
      (fun k2 j2 _ h => hall j2 (List.getElem?_mem h))
    obtain ⟨i, j1, h1, _, h3, h4, h5⟩ :=
      last_not_completed_loop_some jobs jobs.length (Nat.le_refl _) ⟨k, j, hk, hkj, hc⟩
    refine ⟨i, j1, ?_, h3, h4, fun k2 j2 hik hj2 => h5 k2 j2 hik (inb k2 j2 hj2) hj2⟩
    unfold get_current_job
    rw [hnone, h1]
  refine ⟨stopped_case, running_case, ?_, ?_⟩
  · intro hnone j hj
    constructor
    · cases hs : j.is_stopped with
      | false => rfl
      | true =>
        obtain ⟨i, j1, h1, _⟩ := stopped_case ⟨j, hj, hs⟩
        rw [hnone] at h1
        cases h1
    · cases hc : j.is_completed with
      | true => rfl
      | false =>
        by_cases hst : ∃ j2 ∈ jobs.data, j2.is_stopped = true
        · obtain ⟨i, j1, h1, _⟩ := stopped_case hst
          rw [hnone] at h1
          cases h1
        · have hall : ∀ j2 ∈ jobs.data, j2.is_stopped = false := by
            intro j2 hj2
            cases h : j2.is_stopped with
            | false => rfl
            | true => exact absurd ⟨j2, hj2, h⟩ hst
          obtain ⟨i, j1, h1, _⟩ := running_case hall ⟨j, hj, hc⟩
          rw [hnone] at h1
          cases h1
  · intro hall
    unfold get_current_job
    rw [last_stopped_loop_none jobs jobs.length
      (fun k2 j2 _ h => (hall j2 (List.getElem?_mem h)).1)]
    exact last_not_completed_loop_none jobs jobs.length
      (fun k2 j2 _ h => (hall j2 (List.getElem?_mem h)).2)

/-! ## Job resolution -/

theorem find_job_by_id_loop_some (job_id : Nat) :
    ∀ (l : List job) (k i : Nat) (j : job),
      find_job_by_id_loop job_id l k = some (i, j) →
      ∃ n, i = k + n ∧ l[n]? = some j ∧ j.id = job_id := by
  intro l
  induction l with
  | nil => intro k i j h; cases h
  | cons curj rest ih =>
    intro k i j h
    unfold find_job_by_id_loop at h
    by_cases hid : curj.id = job_id
    · rw [if_pos hid] at h
      cases h
      exact ⟨0, rfl, by simp, hid⟩
    · rw [if_neg hid] at h
      obtain ⟨n, h1, h2, h3⟩ := ih (k + 1) i j h
      exact ⟨n + 1, by omega, by simpa using h2, h3⟩

theorem find_job_by_id_loop_none (job_id : Nat) :
    ∀ (l : List job) (k : Nat),
      (∀ j ∈ l, j.id ≠ job_id) → find_job_by_id_loop job_id l k = none := by
  intro l
  induction l with
  | nil => intro k _; rfl
  | cons curj rest ih =>
    intro k h
    unfold find_job_by_id_loop
    rw [if_neg (h curj (List.mem_cons_self _ _))]
    exact ih (k + 1) (fun j hj => h j (List.mem_cons_of_mem _ hj))

theorem last_stopped_loop_slot (jobs : Vec job) :
    ∀ (n i : Nat) (j : job), last_stopped_loop jobs n = some (i, j) →
      jobs.data[i]? = some j := by
  intro n
  induction n with
  | zero => intro i j h; cases h
  | succ n ih =>
    intro i j h
    unfold last_stopped_loop vec_get at h
    cases hget : jobs.data[n]? with
    | none => rw [hget] at h; cases h
    | some curj =>
      rw [hget] at h
      cases hc : curj.is_stopped with
      | true =>
        simp only [hc, if_true] at h
        cases h
        exact hget
      | false =>
        simp only [hc] at h
        exact ih i j h

theorem last_not_completed_loop_slot (jobs : Vec job) :
    ∀ (n i : Nat) (j : job), last_not_completed_loop jobs n = some (i, j) →
      jobs.data[i]? = some j := by
  intro n
  induction n with
  | zero => intro i j h; cases h
  | succ n ih =>
    intro i j h
    unfold last_not_completed_loop vec_get at h
    cases hget : jobs.data[n]? with
    | none => rw [hget] at h; cases h
    | some curj =>
      rw [hget] at h
      cases hc : curj.is_completed with
      | false =>
        simp only [hc] at h
        cases h
        exact hget
      | true =>
        simp only [hc] at h
        exact ih i j h

theorem get_current_job_slot (jobs : Vec job) (i : Nat) (j : job)
    (h : get_current_job jobs = some (i, j)) : jobs.data[i]? = some j := by
  unfold get_current_job at h
  cases h1 : last_stopped_loop jobs jobs.length with
  | some r =>
    rw [h1] at h
    cases h
    exact last_stopped_loop_slot jobs _ i j h1
  | none =>
    rw [h1] at h
    exact last_not_completed_loop_slot jobs _ i j h

/-- The job a builtin resolves sits in the slot it resolves. -/
theorem resolve_job_slot (name : String) (args : List String) (jobs : Vec job)
    (i : Nat) (j : job) (h : resolve_job name args jobs = Except.ok (i, j)) :
    jobs.data[i]? = some j := by
  unfold resolve_job at h
  cases ha : args[1]? with
  | some arg =>
    rw [ha] at h
    simp only at h
    split at h
    · cases h
    · cases hf : find_job_by_id jobs (to_jid (strtol arg.toList).1) with
      | none => rw [hf] at h; cases h
      | some r =>
        rw [hf] at h
        cases h
        obtain ⟨n, h1, h2, _⟩ := find_job_by_id_loop_some _ _ _ _ _ hf
        have : i = n := by omega
        rw [this]
        exact h2
  | none =>
    rw [ha] at h
    simp only at h
    cases hg : get_current_job jobs with
    | none => rw [hg] at h; cases h
    | some r =>
      rw [hg] at h
      cases h
      exact get_current_job_slot jobs i j hg

/-! ## `strtol` -/

theorem mem_skip_space (c : Char) (hc : isspace c = false) :
    ∀ s : List Char, c ∈ s → c ∈ skip_space s := by
  intro s
  induction s with
  | nil => intro h; cases h
  | cons a rest ih =>
    intro h
    unfold skip_space
    by_cases ha : isspace a = true
    · rw [if_pos ha]
      rcases List.mem_cons.mp h with h | h
      · subst h
        rw [hc] at ha
        cases ha
      · exact ih h
    · rw [if_neg ha]
      exact h

theorem mem_strtol_digits (c : Char) (hc : c.isDigit = false) :
    ∀ (s : List Char) (acc : Nat), c ∈ s → c ∈ (strtol_digits s acc).2 := by
  intro s
  induction s with
  | nil => intro acc h; cases h
  | cons a rest ih =>
    intro acc h
    unfold strtol_digits
    by_cases ha : a.isDigit = true
    · rw [if_pos ha]
      rcases List.mem_cons.mp h with h | h
      · subst h
        rw [hc] at ha
        cases ha
      · exact ih _ h
    · rw [if_neg ha]
      exact h

/-- An argument with a character that is none of white space, a sign or a
digit is not consumed whole by `strtol`: `endptr` does not reach the NUL. -/
theorem strtol_rest_of_other_char (s : List Char) (c : Char) (hmem : c ∈ s)
    (hspace : isspace c = false) (hdigit : c.isDigit = false)
    (hplus : c ≠ '+') (hminus : c ≠ '-') :
    (strtol s).2 ≠ [] := by
  have hs : s ≠ [] := List.ne_nil_of_mem hmem
  have h1 : c ∈ skip_space s := mem_skip_space c hspace s hmem
  have h2 : c ∈ (if (skip_space s).head? = some '-' ∨ (skip_space s).head? = some '+'
      then (skip_space s).tail else skip_space s) := by
    split
    · cases hsk : skip_space s with
      | nil => rw [hsk] at h1; cases h1
      | cons a rest =>
        rename_i hsign
        rw [hsk] at h1 hsign
        simp only [List.head?_cons, Option.some.injEq] at hsign
        rcases List.mem_cons.mp h1 with h | h
        · subst h
          rcases hsign with h | h
          · exact absurd h hminus
          · exact absurd h hplus
        · exact h
    · exact h1
  unfold strtol
  simp only
  split
  · exact hs
  · rename_i a rest heq
    by_cases ha : a.isDigit = true
    · rw [if_pos ha]
      exact List.ne_nil_of_mem (mem_strtol_digits c hdigit _ 0 h2)
    · rw [if_neg ha]
      exact hs

/-! ## `bg` and `fg` -/

/-- C2: when `bg_builtin` resolves a job whose `is_stopped` is set and `killpg`
succeeds, it returns `true`; the resolved job's slot then holds the same
record with `is_stopped` cleared and `is_background` set (its `id`, `cmd`,
`pids`, `is_completed` and `num_processes` as before); the events of the call
are the continue signal and the "Running" notice, so no wait is issued; every
other slot, the length of the table and the terminal owner are unchanged. -/
theorem bg_builtin_stopped (o : os) (args : List String) (sh : shell) (i : Nat) (curj : job)
    (hres : resolve_job "bg" args sh.jobs = Except.ok (i, curj))
    (hstop : curj.is_stopped = true)
    (hkill : 0 ≤ o.killpg (pid_at curj.pids 0) signal.SIGCONT) :
    sh.jobs.data[i]? = some curj ∧
    (bg_builtin o args sh).1 = true ∧
    (bg_builtin o args sh).2.jobs.data[i]? =
      some { id := curj.id, cmd := curj.cmd, pids := curj.pids, is_background := true,
             is_completed := curj.is_completed, is_stopped := false,
             num_processes := curj.num_processes } ∧
    (∀ k, k ≠ i → (bg_builtin o args sh).2.jobs.data[k]? = sh.jobs.data[k]?) ∧
    (bg_builtin o args sh).2.jobs.data.length = sh.jobs.data.length ∧
    (bg_builtin o args sh).2.jobs.capacity = sh.jobs.capacity ∧
    (bg_builtin o args sh).2.trace = sh.trace ++
      [event.killpg (pid_at curj.pids 0) signal.SIGCONT,
       event.stdout ("Running: " ++ print_job_command curj ++ "\n")] ∧
    (bg_builtin o args sh).2.term_owner = sh.term_owner := by
  have hslot := resolve_job_slot "bg" args sh.jobs i curj hres
  have hlt : i < sh.jobs.data.length := by
    by_contra hk
    rw [List.getElem?_eq_none (Nat.le_of_not_lt hk)] at hslot
    cases hslot
  have hk2 : ¬ o.killpg (pid_at curj.pids 0) signal.SIGCONT < 0 := not_lt.mpr hkill
  have hb : bg_builtin o args sh =
      (true, ((sh.store i { curj with is_stopped := false, is_background := true }).emit
        [event.killpg (pid_at curj.pids 0) signal.SIGCONT,
         event.stdout ("Running: " ++ print_job_command curj ++ "\n")])) := by
    unfold bg_builtin
    rw [hres]
    simp only [hstop, continue_job, if_neg hk2]
    rfl
  rw [hb]
  refine ⟨hslot, rfl, ?_, ?_, ?_, rfl, rfl, rfl⟩
  · simp [shell.emit, shell.store, hlt]
  · intro k hk
    simp only [shell.emit, shell.store]
    exact List.getElem?_set_ne (Ne.symm hk)
  · simp [shell.emit, shell.store]

/-- C2 at a concrete input: `bg` with no argument in a table whose only
stopped job is in slot 0. -/
theorem bg_builtin_stopped_witness :
    shell_two.jobs.data[0]? = some job_stopped ∧
    (bg_builtin os_ok ["bg"] shell_two).1 = true ∧
    (bg_builtin os_ok ["bg"] shell_two).2.jobs.data[0]? =
      some { id := 1, cmd := cmd_ls, pids := [100], is_background := true,
             is_completed := false, is_stopped := false, num_processes := 1 } ∧
    (∀ k, k ≠ 0 → (bg_builtin os_ok ["bg"] shell_two).2.jobs.data[k]? =
      shell_two.jobs.data[k]?) ∧
    (bg_builtin os_ok ["bg"] shell_two).2.jobs.data.length = shell_two.jobs.data.length ∧
    (bg_builtin os_ok ["bg"] shell_two).2.jobs.capacity = shell_two.jobs.capacity ∧
    (bg_builtin os_ok ["bg"] shell_two).2.trace = shell_two.trace ++
      [event.killpg (pid_at job_stopped.pids 0) signal.SIGCONT,
       event.stdout ("Running: " ++ print_job_command job_stopped ++ "\n")] ∧
    (bg_builtin os_ok ["bg"] shell_two).2.term_owner = shell_two.term_owner :=
  bg_builtin_stopped os_ok ["bg"] shell_two 0 job_stopped rfl rfl (by decide)

/-- C3: when `bg_builtin` resolves a job whose `is_stopped` is clear, it
returns `false` and the shell is as before except for one message on standard
error: no signal is sent and the table, every job in it and the terminal owner
are unchanged. -/
theorem bg_builtin_not_stopped (o : os) (args : List String) (sh : shell) (i : Nat)
    (curj : job)
    (hres : resolve_job "bg" args sh.jobs = Except.ok (i, curj))
    (hrun : curj.is_stopped = false) :
    sh.jobs.data[i]? = some curj ∧
    bg_builtin o args sh =
      (false,
        { jobs := sh.jobs,
          trace := sh.trace ++
            [event.stderr ("bg: job " ++ toString curj.id ++ " is already running\n")],
          term_owner := sh.term_owner }) := by
  refine ⟨resolve_job_slot "bg" args sh.jobs i curj hres, ?_⟩
  unfold bg_builtin
  rw [hres]
  simp only [hrun]
  rfl

/-- C3 at a concrete input: `bg 2` on the running job with id 2. -/
theorem bg_builtin_not_stopped_witness :
    shell_two.jobs.data[1]? = some job_running ∧
    bg_builtin os_ok ["bg", "2"] shell_two =
      (false,
        { jobs := shell_two.jobs,
          trace := shell_two.trace ++
            [event.stderr ("bg: job " ++ toString job_running.id ++ " is already running\n")],
          term_owner := shell_two.term_owner }) :=
  bg_builtin_not_stopped os_ok ["bg", "2"] shell_two 1 job_running rfl rfl


/-- What `resolve_job` answers on each of the three failing paths. -/
theorem resolve_job_error (args : List String) (jobs : Vec job)
    (h : (∃ arg, args[1]? = some arg ∧
            ((∃ c ∈ arg.toList,
                isspace c = false ∧ c.isDigit = false ∧ c ≠ '+' ∧ c ≠ '-') ∨
             (strtol arg.toList).2 ≠ [] ∨
             ∀ j ∈ jobs.data, j.id ≠ to_jid (strtol arg.toList).1)) ∨
         (args[1]? = none ∧ get_current_job jobs = none)) :
    ∃ text, ∀ name : String, resolve_job name args jobs = Except.error (name ++ text) := by
  have hrest : ∀ arg : String,
      (∃ c ∈ arg.toList, isspace c = false ∧ c.isDigit = false ∧ c ≠ '+' ∧ c ≠ '-') →
      (strtol arg.toList).2 ≠ [] := by
    rintro arg ⟨c, hc, h1, h2, h3, h4⟩
    exact strtol_rest_of_other_char arg.toList c hc h1 h2 h3 h4
  rcases h with ⟨arg, ha, hchar | hbad | hno⟩ | ⟨ha, hcur⟩
  · have hbad := hrest arg hchar
    refine ⟨": invalid job id: " ++ arg ++ "\n", fun name => ?_⟩
    unfold resolve_job
    rw [ha]
    simp only [if_pos hbad, String.append_assoc]
  · refine ⟨": invalid job id: " ++ arg ++ "\n", fun name => ?_⟩
    unfold resolve_job
    rw [ha]
    simp only [if_pos hbad, String.append_assoc]
  · by_cases hbad : (strtol arg.toList).2 ≠ []
    · refine ⟨": invalid job id: " ++ arg ++ "\n", fun name => ?_⟩
      unfold resolve_job
      rw [ha]
      simp only [if_pos hbad, String.append_assoc]
    · refine ⟨": no such job: " ++ arg ++ "\n", fun name => ?_⟩
      unfold resolve_job
      rw [ha]
      simp only [if_neg hbad, find_job_by_id, find_job_by_id_loop_none _ _ 0 hno,
        String.append_assoc]
  · refine ⟨": no current job\n", fun name => ?_⟩
    unfold resolve_job
    rw [ha]
    simp only [hcur]

/-- C4: when the job-id argument of `fg` or `bg` is not a decimal number (it
has a character that is none of white space, sign or digit or, in general,
`strtol` in base 10 does not consume it whole), or its value is the id of no
job in the table, or when there is no argument and `get_current_job` finds no
job, the builtin returns `false` and the shell is as before except for one
message on standard error: no signal is sent, the terminal is not handed
over, and the table and every job in it are unchanged. -/
theorem fg_bg_unresolved (o : os) (args : List String) (sh : shell)
    (h : (∃ arg, args[1]? = some arg ∧
            ((∃ c ∈ arg.toList,
                isspace c = false ∧ c.isDigit = false ∧ c ≠ '+' ∧ c ≠ '-') ∨
             (strtol arg.toList).2 ≠ [] ∨
             ∀ j ∈ sh.jobs.data, j.id ≠ to_jid (strtol arg.toList).1)) ∨
         (args[1]? = none ∧ get_current_job sh.jobs = none)) :
    ∃ text,
      bg_builtin o args sh =
        (false, { jobs := sh.jobs, trace := sh.trace ++ [event.stderr ("bg" ++ text)],
                  term_owner := sh.term_owner }) ∧
      fg_builtin o args sh =
        (false, { jobs := sh.jobs, trace := sh.trace ++ [event.stderr ("fg" ++ text)],
                  term_owner := sh.term_owner }) := by
  obtain ⟨text, ht⟩ := resolve_job_error args sh.jobs h
  refine ⟨text, ?_, ?_⟩
  · unfold bg_builtin
    rw [ht "bg"]
    rfl
  · unfold fg_builtin
    rw [ht "fg"]
    rfl

/-- C4 at concrete inputs, in a table whose ids are 1 and 2: the argument `7`,
the id of no job, and the argument `x1`, which is not a number. -/
theorem fg_bg_unresolved_witness :
    (∃ text,
      bg_builtin os_ok ["bg", "7"] shell_two =
        (false, { jobs := shell_two.jobs,
                  trace := shell_two.trace ++ [event.stderr ("bg" ++ text)],
                  term_owner := shell_two.term_owner }) ∧
      fg_builtin os_ok ["bg", "7"] shell_two =
        (false, { jobs := shell_two.jobs,
                  trace := shell_two.trace ++ [event.stderr ("fg" ++ text)],
                  term_owner := shell_two.term_owner })) ∧
    (∃ text,
      bg_builtin os_ok ["fg", "x1"] shell_two =
        (false, { jobs := shell_two.jobs,
                  trace := shell_two.trace ++ [event.stderr ("bg" ++ text)],
                  term_owner := shell_two.term_owner }) ∧
      fg_builtin os_ok ["fg", "x1"] shell_two =
        (false, { jobs := shell_two.jobs,
                  trace := shell_two.trace ++ [event.stderr ("fg" ++ text)],
                  term_owner := shell_two.term_owner })) :=
  ⟨fg_bg_unresolved os_ok ["bg", "7"] shell_two
      (Or.inl ⟨"7", rfl, Or.inr (Or.inr (by decide))⟩),
   fg_bg_unresolved os_ok ["fg", "x1"] shell_two
      (Or.inl ⟨"x1", rfl, Or.inl ⟨'x', by decide, by decide, by decide, by decide,
        by decide⟩⟩)⟩

/-! ## `jobs` -/

theorem intercalate_go_print_args :
    ∀ (rest : List String) (b acc : String),
      String.intercalate.go acc " " (b :: rest) = acc ++ " " ++ print_args (b :: rest) := by
  intro rest
  induction rest with
  | nil => intro b acc; simp [String.intercalate.go, print_args]
  | cons c r ih =>
    intro b acc
    rw [String.intercalate.go, ih c (acc ++ " " ++ b)]
    simp only [print_args, String.append_assoc]

/-- The text `print_job_command` writes for one stage is its arguments joined
by one blank. -/
theorem print_args_eq (args : List String) : print_args args = " ".intercalate args := by
  cases args with
  | nil => rfl
  | cons a rest =>
    cases rest with
    | nil => rfl
    | cons b r =>
      show _ = String.intercalate.go a " " (b :: r)
      rw [intercalate_go_print_args]
      simp only [print_args, String.append_assoc]

theorem intercalate_go_print_stages :
    ∀ (rest : List (List String)) (b : List String) (acc : String),
      String.intercalate.go acc " | " ((b :: rest).map print_args) =
        acc ++ " | " ++ print_stages (b :: rest) := by
  intro rest
  induction rest with
  | nil => intro b acc; simp [String.intercalate.go, print_stages]
  | cons c r ih =>
    intro b acc
    rw [List.map_cons, String.intercalate.go, ih c (acc ++ " | " ++ print_args b)]
    simp only [print_stages, String.append_assoc]

/-- The text `print_job_command` writes is the stages joined by `" | "`. -/
theorem print_stages_eq (commands : List (List String)) :
    print_stages commands =
      " | ".intercalate (commands.map (fun args => " ".intercalate args)) := by
  have hf : (fun args => " ".intercalate args) = print_args :=
    funext (fun args => (print_args_eq args).symm)
  rw [hf]
  cases commands with
  | nil => rfl
  | cons a rest =>
    cases rest with
    | nil => rfl
    | cons b r =>
      show _ = String.intercalate.go (print_args a) " | " ((b :: r).map print_args)
      rw [intercalate_go_print_stages]
      simp only [print_stages, String.append_assoc]

theorem jobs_builtin_loop_eq :
    ∀ l : List job, jobs_builtin_loop l =
      (l.filter (fun j => !j.is_completed)).map (fun j =>
        event.stdout ("[" ++ toString j.id ++ "] "
          ++ " | ".intercalate (j.cmd.commands.map (fun args => " ".intercalate args))
          ++ " (" ++ (if j.is_stopped then "stopped" else "running") ++ ")\n")) := by
  intro l
  induction l with
  | nil => rfl
  | cons curj rest ih =>
    unfold jobs_builtin_loop
    rw [ih]
    cases hc : curj.is_completed with
    | true => simp [List.filter, hc]
    | false =>
      simp [List.filter, hc, print_job_status, print_job_command, print_stages_eq,
        String.append_assoc]

/-- C5: `jobs_builtin` writes exactly one line per job whose `is_completed` is
clear, in table order; the line of a job is `[id] `, the arguments of each
stage joined by a blank and the stages joined by ` | `, then ` (stopped)` if
`is_stopped` is set and ` (running)` otherwise; nothing is written for a
completed job, and the table and the terminal owner are not modified. -/
theorem jobs_builtin_spec (sh : shell) :
    jobs_builtin sh =
      { jobs := sh.jobs,
        trace := sh.trace ++
          (sh.jobs.data.filter (fun j => !j.is_completed)).map (fun j =>
            event.stdout ("[" ++ toString j.id ++ "] "
              ++ " | ".intercalate (j.cmd.commands.map (fun args => " ".intercalate args))
              ++ " (" ++ (if j.is_stopped then "stopped" else "running") ++ ")\n")),
        term_owner := sh.term_owner } := by
  unfold jobs_builtin shell.emit
  rw [jobs_builtin_loop_eq]

/-! ## The synchronous reaper -/

theorem pid_at_append (pre suf : List Int) (p : Int) :
    pid_at (pre ++ p :: suf) pre.length = p := by
  unfold pid_at
  rw [List.getD_append_right _ _ _ _ (Nat.le_refl _)]
  simp

theorem set_append_cons (pre suf : List Int) (p q : Int) :
    (pre ++ p :: suf).set pre.length q = pre ++ q :: suf := by
  rw [List.set_append_right _ _ (Nat.le_refl _)]
  simp

theorem find_pid_loop_terminated (pid : Int) (status : wstatus)
    (hst : status = wstatus.exited ∨ status = wstatus.signaled) :
    ∀ (suf pre : List Int) (cur : job),
      cur.pids = pre ++ suf → cur.num_processes = pre.length + suf.length →
      find_pid_loop pid status suf.length pre.length cur =
        (decide (pid ∈ suf),
          { cur with pids := pre ++ suf.map (fun p => if p = pid then -1 else p) }) := by
  intro suf
  induction suf with
  | nil =>
    intro pre cur h1 _
    cases cur
    simp only at h1
    subst h1
    simp [find_pid_loop]
  | cons p s ih =>
    intro pre cur h1 h2
    simp only [List.length_cons] at h2 ⊢
    unfold find_pid_loop
    rw [h1, pid_at_append]
    by_cases hp : p = pid
    · rw [if_pos hp]
      have hk : ¬ pre.length ≥ cur.num_processes := by omega
      have hu : update_process_status cur pre.length status =
          { cur with pids := (pre ++ [-1]) ++ s } := by
        unfold update_process_status
        rw [if_neg hk, if_pos hst, h1, set_append_cons]
        simp
      have := ih (pre ++ [-1]) { cur with pids := (pre ++ [-1]) ++ s } rfl
        (by simp; omega)
      simp only [List.length_append, List.length_singleton] at this
      rw [hu, this]
      simp [hp]
    · rw [if_neg hp]
      have := ih (pre ++ [p]) cur (by simp [h1]) (by simp; omega)
      simp only [List.length_append, List.length_singleton] at this
      rw [this]
      have hne : ¬ pid = p := fun h => hp h.symm
      simp [hp, hne]

theorem find_pid_loop_absent (pid : Int) (status : wstatus) :
    ∀ (suf pre : List Int) (cur : job),
      cur.pids = pre ++ suf → pid ∉ suf →
      find_pid_loop pid status suf.length pre.length cur = (false, cur) := by
  intro suf
  induction suf with
  | nil => intro pre cur _ _; rfl
  | cons p s ih =>
    intro pre cur h1 h2
    simp only [List.length_cons]
    unfold find_pid_loop
    rw [h1, pid_at_append]
    have hp : ¬ p = pid := fun h => h2 (by simp [h])
    rw [if_neg hp]
    have := ih (pre ++ [p]) cur (by simp [h1]) (fun h => h2 (List.mem_cons_of_mem _ h))
    simp only [List.length_append, List.length_singleton] at this
    exact this

theorem find_pid_loop_stopped (pid : Int) :
    ∀ (suf pre : List Int) (cur : job),
      cur.pids = pre ++ suf → cur.num_processes = pre.length + suf.length → pid ∈ suf →
      find_pid_loop pid wstatus.stopped suf.length pre.length cur =
        (true, { cur with is_stopped := true }) := by
  intro suf
  induction suf with
  | nil => intro pre cur _ _ h; cases h
  | cons p s ih =>
    intro pre cur h1 h2 h3
    simp only [List.length_cons] at h2 ⊢
    unfold find_pid_loop
    have hpa : pid_at cur.pids pre.length = p := by rw [h1, pid_at_append]
    rw [hpa]
    by_cases hp : p = pid
    · rw [if_pos hp]
      have hk : ¬ pre.length ≥ cur.num_processes := by omega
      have hu : update_process_status cur pre.length wstatus.stopped =
          { cur with is_stopped := true } := by
        unfold update_process_status
        rw [if_neg hk]
        simp
      rw [hu]
      by_cases hs : pid ∈ s
      · have := ih (pre ++ [p]) { cur with is_stopped := true } (by simp [h1])
          (by simp; omega) hs
        simp only [List.length_append, List.length_singleton] at this
        rw [this]
      · have := find_pid_loop_absent pid wstatus.stopped s (pre ++ [p])
          { cur with is_stopped := true } (by simp [h1]) hs
        simp only [List.length_append, List.length_singleton] at this
        rw [this]
    · rw [if_neg hp]
      have hs : pid ∈ s := by
        rcases List.mem_cons.mp h3 with h | h
        · exact absurd h.symm hp
        · exact h
      have := ih (pre ++ [p]) cur (by simp [h1]) (by simp; omega) hs
      simp only [List.length_append, List.length_singleton] at this
      exact this

theorem is_job_completed_loop_eq :
    ∀ (suf pre : List Int),
      is_job_completed_loop (pre ++ suf) suf.length pre.length = decide (∀ p ∈ suf, p = -1) := by
  intro suf
  induction suf with
  | nil => intro pre; simp [is_job_completed_loop]
  | cons p s ih =>
    intro pre
    simp only [List.length_cons]
    unfold is_job_completed_loop
    rw [pid_at_append]
    by_cases hp : p = -1
    · have := ih (pre ++ [p])
      simp only [List.length_append, List.length_singleton, List.append_assoc,
        List.singleton_append] at this
      simp [hp, this]
      simpa [hp] using this
    · simp [hp]

/-- On a job whose `pids` has `num_processes` entries, `is_job_completed` says
whether every entry is the sentinel. -/
theorem is_job_completed_iff (j : job) (hwf : j.pids.length = j.num_processes) :
    is_job_completed j = true ↔ ∀ p ∈ j.pids, p = -1 := by
  unfold is_job_completed
  rw [← hwf]
  have := is_job_completed_loop_eq j.pids []
  simp only [List.nil_append, List.length_nil] at this
  rw [this]
  exact decide_eq_true_iff

theorem update_job_status_scan_skip (pid : Int) (status : wstatus) (sh : shell) :
    ∀ (l1 l2 : List job) (i : Nat),
      (∀ j ∈ l1, j.pids.length = j.num_processes ∧ pid ∉ j.pids) →
      update_job_status_scan pid status sh (l1 ++ l2) i =
        update_job_status_scan pid status sh l2 (i + l1.length) := by
  intro l1
  induction l1 with
  | nil => intro l2 i _; rfl
  | cons curj rest ih =>
    intro l2 i h
    obtain ⟨hwf, hno⟩ := h curj (List.mem_cons_self _ _)
    have hf : find_pid_loop pid status curj.num_processes 0 curj = (false, curj) := by
      have := find_pid_loop_absent pid status curj.pids [] curj rfl hno
      rw [hwf] at this
      exact this
    rw [List.cons_append, update_job_status_scan]
    simp only [hf]
    rw [ih l2 (i + 1) (fun j hj => h j (List.mem_cons_of_mem _ hj))]
    simp only [List.length_cons]
    rw [show i + 1 + rest.length = i + (rest.length + 1) by omega]
    exact if_neg Bool.false_ne_true

/-- The table splits at a slot that holds a job. -/
theorem data_split (l : List job) (i : Nat) (J : job) (h : l[i]? = some J) :
    l = l.take i ++ J :: l.drop (i + 1) ∧ (l.take i).length = i := by
  have hlt : i < l.length := by
    by_contra hk
    rw [List.getElem?_eq_none (Nat.le_of_not_lt hk)] at h
    cases h
  have hJ : l[i] = J := by
    rw [List.getElem?_eq_getElem hlt] at h
    exact Option.some.inj h
  refine ⟨?_, by simp [Nat.le_of_lt hlt]⟩
  rw [← hJ]
  simp

theorem vec_erase_set (v : Vec job) (i : Nat) (x : job) (hlt : i < v.data.length) :
    vec_erase { v with data := v.data.set i x } i =
      some ({ v with data := v.data.eraseIdx i }, if v.has_dtor then [x] else []) := by
  have he : (v.data.set i x).eraseIdx i = v.data.eraseIdx i := by
    apply List.ext_getElem?
    intro k
    rw [List.getElem?_eraseIdx, List.getElem?_eraseIdx]
    by_cases hk : k < i
    · rw [if_pos hk, if_pos hk, List.getElem?_set_ne (by omega)]
    · rw [if_neg hk, if_neg hk, List.getElem?_set_ne (by omega)]
  unfold vec_erase
  simp only [List.getElem?_set_self hlt, he]

theorem update_job_status_scan_at (pid : Int) (status : wstatus) (sh : shell)
    (hwf : ∀ j ∈ sh.jobs.data, j.pids.length = j.num_processes)
    (i : Nat) (J : job) (hJ : sh.jobs.data[i]? = some J)
    (hfirst : ∀ k j, k < i → sh.jobs.data[k]? = some j → pid ∉ j.pids) :
    update_job_status_scan pid status sh sh.jobs.data 0 =
      update_job_status_scan pid status sh (J :: sh.jobs.data.drop (i + 1)) i := by
  obtain ⟨hsplit, hlen⟩ := data_split sh.jobs.data i J hJ
  have hskip := update_job_status_scan_skip pid status sh (sh.jobs.data.take i)
    (J :: sh.jobs.data.drop (i + 1)) 0 (by
      intro j hj
      refine ⟨hwf j (List.mem_of_mem_take hj), ?_⟩
      obtain ⟨k, hk, hkj⟩ := List.getElem_of_mem hj
      have hk2 : k < i := by rw [hlen] at hk; exact hk
      refine hfirst k j hk2 ?_
      rw [List.getElem_take] at hkj
      rw [← hkj]
      exact List.getElem?_eq_getElem _)
  rw [← hsplit, hlen, Nat.zero_add] at hskip
  exact hskip

/-- C6: one child-state change `(pid, status)` processed by
`update_job_status`, in a table whose jobs have `num_processes` entries in
`pids`. A pid that is in no job changes nothing. Otherwise let `J`, in slot
`i`, be the first job that has the pid. On `stopped`, slot `i` holds `J` with
`is_stopped` set, its pids unchanged, and a "Stopped" notice is written. On
`exited` or `signaled`, the entries of `J.pids` equal to the pid become -1;
when every entry is then -1 the job is marked completed and erased from the
table, with a "Finished" notice exactly when `J.is_background`; when not, slot
`i` holds `J` with the new pids and nothing is written. In all cases the other
jobs and their order are unchanged. -/
theorem update_job_status_one (sh : shell) (pid : Int) (status : wstatus)
    (hpid : 0 < pid)
    (hwf : ∀ j ∈ sh.jobs.data, j.pids.length = j.num_processes) :
    ((∀ j ∈ sh.jobs.data, pid ∉ j.pids) →
      update_job_status [(pid, status)] sh =
        some { jobs := sh.jobs,
               trace := sh.trace ++ [event.waitpid (-1), event.waitpid (-1)],
               term_owner := sh.term_owner }) ∧
    (∀ (i : Nat) (J : job), sh.jobs.data[i]? = some J → pid ∈ J.pids →
      (∀ k j, k < i → sh.jobs.data[k]? = some j → pid ∉ j.pids) →
      (status = wstatus.stopped →
        update_job_status [(pid, status)] sh =
          some { jobs := { sh.jobs with
                   data := sh.jobs.data.set i { J with is_stopped := true } },
                 trace := sh.trace ++
                   [event.waitpid (-1),
                    event.stdout ("Stopped: " ++ print_job_command J ++ "\n"),
                    event.waitpid (-1)],
                 term_owner := sh.term_owner }) ∧
      (status = wstatus.exited ∨ status = wstatus.signaled →
        ((∀ p ∈ J.pids.map (fun p => if p = pid then -1 else p), p = -1) →
          update_job_status [(pid, status)] sh =
            some { jobs := { sh.jobs with data := sh.jobs.data.eraseIdx i },
                   trace := sh.trace ++ [event.waitpid (-1)] ++
                     (if J.is_background then
                        [event.stdout ("Finished: " ++ print_job_command J ++ "\n")]
                      else []) ++
                     (if sh.jobs.has_dtor then
                        [event.free_job
                          { J with pids := J.pids.map (fun p => if p = pid then -1 else p),
                                   is_completed := true }]
                      else []) ++
                     [event.waitpid (-1)],
                   term_owner := sh.term_owner }) ∧
        (¬ (∀ p ∈ J.pids.map (fun p => if p = pid then -1 else p), p = -1) →
          update_job_status [(pid, status)] sh =
            some { jobs := { sh.jobs with
                     data := sh.jobs.data.set i
                       { J with pids := J.pids.map (fun p => if p = pid then -1 else p) } },
                   trace := sh.trace ++ [event.waitpid (-1), event.waitpid (-1)],
                   term_owner := sh.term_owner }))) := by
  have hgt : pid > 0 := hpid
  constructor
  · intro hno
    have hskip := update_job_status_scan_skip pid status (sh.emit [event.waitpid (-1)])
      sh.jobs.data [] 0 (fun j hj => ⟨hwf j hj, hno j hj⟩)
    rw [List.append_nil] at hskip
    unfold update_job_status
    rw [if_pos hgt, hskip]
    simp [update_job_status_scan, update_job_status, shell.emit]
  · intro i J hJ hmem hfirst
    have hwJ : J.pids.length = J.num_processes := hwf J (List.getElem?_mem hJ)
    have hat := update_job_status_scan_at pid status (sh.emit [event.waitpid (-1)])
      hwf i J hJ hfirst
    have hscan : update_job_status [(pid, status)] sh =
        match update_job_status_scan pid status (sh.emit [event.waitpid (-1)])
          (J :: sh.jobs.data.drop (i + 1)) i with
        | none => none
        | some sh1 => some (sh1.emit [event.waitpid (-1)]) := by
      unfold update_job_status
      rw [if_pos hgt]
      have : (sh.emit [event.waitpid (-1)]).jobs.data = sh.jobs.data := rfl
      rw [this] at hat
      rw [hat]
      cases update_job_status_scan pid status (sh.emit [event.waitpid (-1)])
        (J :: sh.jobs.data.drop (i + 1)) i with
      | none => rfl
      | some sh1 => simp [update_job_status]
    rw [hscan]
    constructor
    · intro hst
      subst hst
      have hf : find_pid_loop pid wstatus.stopped J.num_processes 0 J =
          (true, { J with is_stopped := true }) := by
        have := find_pid_loop_stopped pid J.pids [] J rfl (by simp [hwJ]) hmem
        rw [hwJ] at this
        exact this
      unfold update_job_status_scan
      simp only [hf]
      simp [shell.emit, shell.store, print_job_status_change, print_job_command]
    · intro hst
      have hf : find_pid_loop pid status J.num_processes 0 J =
          (true, { J with pids := J.pids.map (fun p => if p = pid then -1 else p) }) := by
        have := find_pid_loop_terminated pid status hst J.pids [] J rfl (by simp [hwJ])
        rw [hwJ] at this
        simp only [List.nil_append, List.length_nil] at this
        rw [this]
        simp [hmem]
      have hns : ¬ status = wstatus.stopped := by
        rcases hst with h | h <;> (rw [h]; decide)
      have hcomp : check_job_completion
          { J with pids := J.pids.map (fun p => if p = pid then -1 else p) } = true ↔
          ∀ p ∈ J.pids.map (fun p => if p = pid then -1 else p), p = -1 := by
        unfold check_job_completion
        exact is_job_completed_iff _ (by simp [hwJ])
      constructor
      · intro hall
        unfold update_job_status_scan
        simp only [hf, if_true, if_neg hns, if_pos hst, hcomp.mpr hall]
        have hlt : i < sh.jobs.data.length := by
          by_contra hk
          rw [List.getElem?_eq_none (Nat.le_of_not_lt hk)] at hJ
          cases hJ
        cases hb : J.is_background with
        | true =>
          simp [shell.emit, shell.store, List.set_set, vec_erase_set _ _ _ hlt,
            print_job_status_change, print_job_command]
          cases sh.jobs.has_dtor <;> rfl
        | false =>
          simp [shell.emit, shell.store, List.set_set, vec_erase_set _ _ _ hlt]
          cases sh.jobs.has_dtor <;> rfl
      · intro hnall
        unfold update_job_status_scan
        have hc : ¬ check_job_completion
            { J with pids := J.pids.map (fun p => if p = pid then -1 else p) } = true :=
          fun h => hnall (hcomp.mp h)
        simp only [hf, if_true, if_neg hns, if_pos hst, if_neg hc]
        simp [shell.emit, shell.store]

/-- C6 at concrete inputs, in the table of `shell_two`: pid 100 (the only
stage of the job in slot 0) exits and the job is erased without notice, as it
is not a background job; pid 200 (stage 0 of the job in slot 1) stops. -/
theorem update_job_status_one_witness :
    update_job_status [(100, wstatus.exited)] shell_two =
      some { jobs := { data := [job_running], capacity := 10, has_dtor := true },
             trace := [event.waitpid (-1),
                       event.free_job { job_stopped with pids := [-1], is_completed := true },
                       event.waitpid (-1)],
             term_owner := 1 } ∧
    update_job_status [(200, wstatus.stopped)] shell_two =
      some { jobs := { data := [job_stopped, { job_running with is_stopped := true }],
                       capacity := 10, has_dtor := true },
             trace := [event.waitpid (-1), event.stdout "Stopped: sleep 5 | cat\n",
                       event.waitpid (-1)],
             term_owner := 1 } :=
  ⟨((update_job_status_one shell_two 100 wstatus.exited (by decide) (by decide)).2
      0 job_stopped rfl (by decide) (fun k j hk => absurd hk (Nat.not_lt_zero k))).2
      (Or.inl rfl) |>.1 (by decide),
   ((update_job_status_one shell_two 200 wstatus.stopped (by decide) (by decide)).2
      1 job_running rfl (by decide)
      (fun k j hk h => by
        have hk0 : k = 0 := by omega
        subst hk0
        have hj : j = job_stopped := (Option.some.inj h).symm
        subst hj
        decide)).1 rfl⟩

/-! ## `wait_for_pipeline_completion` -/

theorem waits_issued_append (a b : List event) :
    waits_issued (a ++ b) = waits_issued a + waits_issued b := by
  simp [waits_issued]

theorem snapshots_emit (s : wait_state) (evs : List event) :
    (s.emit evs).snapshots = s.snapshots ++ [{ s.now with events := s.now.events ++ evs }] := by
  rfl

theorem snapshots_set_job (s : wait_state) (j : job) :
    (s.set_job j).snapshots = s.snapshots ++ [{ s.now with jb := j }] := by
  rfl

theorem now_mem_snapshots (s : wait_state) : s.now ∈ s.snapshots := by
  simp [wait_state.snapshots]

/-- Issuing loop events keeps the invariant and adds their waits. -/
theorem loop_inv_emit (jb : job) (i c : Nat) (st : Bool) (s : wait_state)
    (evs : List event) (h : loop_inv jb i c st s) (hevs : ∀ e ∈ evs, is_loop_event e) :
    loop_inv jb i (c + waits_issued evs) st (s.emit evs) := by
  obtain ⟨h1, h2, h3, h4, h5⟩ := h
  refine ⟨h1, ?_, ?_, ?_, ?_⟩
  · show s.now.jb = _
    exact h2
  · show waits_issued (s.now.events ++ evs) = _
    rw [waits_issued_append, h3]
  · intro t ht
    rw [snapshots_emit] at ht
    rcases List.mem_append.mp ht with ht | ht
    · exact h4 t ht
    · rw [List.mem_singleton] at ht
      subst ht
      obtain ⟨g1, g2⟩ := h4 s.now (now_mem_snapshots s)
      constructor
      · intro e he
        rcases List.mem_append.mp he with he | he
        · exact g1 e he
        · exact hevs e he
      · intro hs
        show i + 1 ≤ waits_issued (s.now.events ++ evs)
        rw [waits_issued_append]
        exact Nat.le_trans (g2 hs) (Nat.le_add_right _ _)
  · intro hst
    obtain ⟨t, ht, g⟩ := h5 hst
    exact ⟨t, by rw [snapshots_emit]; exact List.mem_append_left _ ht, g⟩

theorem is_loop_event_waitpid (p : Int) : ∀ e ∈ [event.waitpid p], is_loop_event e := by
  intro e he
  rw [List.mem_singleton] at he
  subst he
  exact Or.inl rfl

theorem is_loop_event_perror : ∀ e ∈ [event.perror "waitpid"], is_loop_event e := by
  intro e he
  rw [List.mem_singleton] at he
  subst he
  exact Or.inr (Or.inl rfl)

theorem is_loop_event_newline : ∀ e ∈ [event.stdout "\n"], is_loop_event e := by
  intro e he
  rw [List.mem_singleton] at he
  subst he
  exact Or.inr (Or.inr rfl)

theorem wait_rest_loop_inv (o : os) (pids : List Int) (jb : job) (i : Nat) :
    ∀ (m k c : Nat) (s : wait_state), loop_inv jb i c true s →
      loop_inv jb i (c + m) true (wait_rest_loop o pids m k s) := by
  intro m
  induction m with
  | zero => intro k c s h; exact h
  | succ m ih =>
    intro k c s h
    have h1 := loop_inv_emit jb i c true s [event.waitpid (pid_at pids k)] h
      (is_loop_event_waitpid _)
    have hw : waits_issued [event.waitpid (pid_at pids k)] = 1 := rfl
    rw [hw] at h1
    unfold wait_rest_loop
    cases o.waitpid k with
    | error b =>
      have h2 := loop_inv_emit jb i (c + 1) true _ [event.perror "waitpid"] h1
        is_loop_event_perror
      have hp : waits_issued [event.perror "waitpid"] = 0 := rfl
      rw [hp, Nat.add_zero] at h2
      have := ih (k + 1) (c + 1) _ h2
      rw [show c + 1 + m = c + (m + 1) by omega] at this
      exact this
    | ok status =>
      have := ih (k + 1) (c + 1) _ h1
      rw [show c + 1 + m = c + (m + 1) by omega] at this
      exact this

/-- The statements that record a stop (lines 167-168) take the invariant from
"not seen" to "seen" when they run right after the wait on stage `i`. -/
theorem loop_inv_mark (jb : job) (i : Nat) (s : wait_state)
    (h : loop_inv jb i (i + 1) false s) :
    loop_inv jb i (i + 1) true
      (wait_state.set_job { s with job_stopped := true }
        { s.now.jb with is_stopped := true }) := by
  obtain ⟨_, h2, h3, h4, _⟩ := h
  have hnew : ∀ e ∈ s.now.events, is_loop_event e := (h4 s.now (now_mem_snapshots s)).1
  refine ⟨rfl, ?_, h3, ?_, ?_⟩
  · show { s.now.jb with is_stopped := true } = _
    rw [h2]
  · intro t ht
    rw [snapshots_set_job] at ht
    rcases List.mem_append.mp ht with ht | ht
    · exact h4 t ht
    · rw [List.mem_singleton] at ht
      subst ht
      exact ⟨hnew, fun _ => Nat.le_of_eq h3.symm⟩
  · intro _
    refine ⟨{ s.now with jb := { s.now.jb with is_stopped := true } }, ?_, rfl, h3⟩
    rw [snapshots_set_job]
    exact List.mem_append_right _ (List.mem_singleton.mpr rfl)

theorem wait_for_pipeline_loop_inv (o : os) (pids : List Int) (jb : job) (i : Nat)
    (hi : o.waitpid i = wait_result.ok wstatus.stopped)
    (hfirst : ∀ k, k < i → o.waitpid k ≠ wait_result.ok wstatus.stopped) :
    ∀ (m k : Nat) (s : wait_state), k ≤ i → i < k + m → loop_inv jb i k false s →
      loop_inv jb i (k + m) true (wait_for_pipeline_loop o pids m k s) := by
  intro m
  induction m with
  | zero => intro k s h1 h2 _; omega
  | succ m ih =>
    intro k s hk1 hk2 h
    have h1 := loop_inv_emit jb i k false s [event.waitpid (pid_at pids k)] h
      (is_loop_event_waitpid _)
    have hw : waits_issued [event.waitpid (pid_at pids k)] = 1 := rfl
    rw [hw] at h1
    unfold wait_for_pipeline_loop
    by_cases hki : k = i
    · subst hki
      rw [hi]
      simp only [if_true]
      have h2 := loop_inv_emit jb k (k + 1) false _ [event.stdout "\n"] h1
        is_loop_event_newline
      have hp : waits_issued [event.stdout "\n"] = 0 := rfl
      rw [hp, Nat.add_zero] at h2
      have h3 := loop_inv_mark jb k _ h2
      have := wait_rest_loop_inv o pids jb k m (k + 1) (k + 1) _ h3
      rw [show k + 1 + m = k + (m + 1) by omega] at this
      exact this
    · have hlt : k < i := Nat.lt_of_le_of_ne hk1 hki
      have hne := hfirst k hlt
      cases hwk : o.waitpid k with
      | error b =>
        have h2 := loop_inv_emit jb i (k + 1) false _ [event.perror "waitpid"] h1
          is_loop_event_perror
        have hp : waits_issued [event.perror "waitpid"] = 0 := rfl
        rw [hp, Nat.add_zero] at h2
        have := ih (k + 1) _ hlt (by omega) h2
        rw [show k + 1 + m = k + (m + 1) by omega] at this
        exact this
      | ok status =>
        have hs : ¬ status = wstatus.stopped := by
          intro hs
          rw [hwk, hs] at hne
          exact hne rfl
        simp only [if_neg hs]
        have := ih (k + 1) _ hlt (by omega) h1
        rw [show k + 1 + m = k + (m + 1) by omega] at this
        exact this

theorem waited_pids_append (a b : List event) :
    waited_pids (a ++ b) = waited_pids a ++ waited_pids b := by
  induction a with
  | nil => rfl
  | cons e rest ih =>
    cases e <;> simp [waited_pids, ih]

/-- One more wait, on the stage whose turn it is, keeps the waits in stage
order. -/
theorem waits_in_stage_order_wait (pids : List Int) (evs : List event)
    (h : waits_in_stage_order pids evs) :
    waits_in_stage_order pids (evs ++ [event.waitpid (pid_at pids (waits_issued evs))]) := by
  unfold waits_in_stage_order at h ⊢
  rw [waited_pids_append, waits_issued_append, h]
  have h1 : waits_issued [event.waitpid (pid_at pids (waits_issued evs))] = 1 := rfl
  have h2 : waited_pids [event.waitpid (pid_at pids (waits_issued evs))] =
      [pid_at pids (waits_issued evs)] := rfl
  rw [h1, h2, List.range_succ, List.map_append]
  rfl

/-- Events that are no waits keep the waits in stage order. -/
theorem waits_in_stage_order_other (pids : List Int) (evs more : List event)
    (h : waits_in_stage_order pids evs)
    (h1 : waits_issued more = 0) (h2 : waited_pids more = []) :
    waits_in_stage_order pids (evs ++ more) := by
  unfold waits_in_stage_order at h ⊢
  rw [waited_pids_append, waits_issued_append, h, h1, h2, List.append_nil, Nat.add_zero]

theorem stage_inv_emit (pids : List Int) (s : wait_state) (evs : List event)
    (h : stage_inv pids s)
    (hnew : waits_in_stage_order pids (s.now.events ++ evs)) :
    stage_inv pids (s.emit evs) := by
  intro t ht
  rw [snapshots_emit] at ht
  rcases List.mem_append.mp ht with ht | ht
  · exact h t ht
  · rw [List.mem_singleton] at ht
    subst ht
    exact hnew

theorem stage_inv_set_job (pids : List Int) (s : wait_state) (j : job)
    (h : stage_inv pids s) :
    stage_inv pids (s.set_job j) := by
  intro t ht
  rw [snapshots_set_job] at ht
  rcases List.mem_append.mp ht with ht | ht
  · exact h t ht
  · rw [List.mem_singleton] at ht
    subst ht
    exact h s.now (now_mem_snapshots s)

theorem stage_inv_emit_wait (pids : List Int) (s : wait_state) (k : Nat)
    (h : stage_inv pids s) (hk : waits_issued s.now.events = k) :
    stage_inv pids (s.emit [event.waitpid (pid_at pids k)]) ∧
    waits_issued (s.emit [event.waitpid (pid_at pids k)]).now.events = k + 1 := by
  constructor
  · apply stage_inv_emit pids s _ h
    have := waits_in_stage_order_wait pids s.now.events (h s.now (now_mem_snapshots s))
    rw [hk] at this
    exact this
  · show waits_issued (s.now.events ++ _) = k + 1
    rw [waits_issued_append, hk]
    rfl

theorem stage_inv_emit_other (pids : List Int) (s : wait_state) (more : List event)
    (k : Nat) (h : stage_inv pids s) (hk : waits_issued s.now.events = k)
    (h1 : waits_issued more = 0) (h2 : waited_pids more = []) :
    stage_inv pids (s.emit more) ∧ waits_issued (s.emit more).now.events = k := by
  constructor
  · exact stage_inv_emit pids s _ h
      (waits_in_stage_order_other pids _ _ (h s.now (now_mem_snapshots s)) h1 h2)
  · show waits_issued (s.now.events ++ more) = k
    rw [waits_issued_append, hk, h1, Nat.add_zero]

theorem wait_rest_loop_stage (o : os) (pids : List Int) :
    ∀ (m k : Nat) (s : wait_state), stage_inv pids s → waits_issued s.now.events = k →
      stage_inv pids (wait_rest_loop o pids m k s) := by
  intro m
  induction m with
  | zero => intro k s h _; exact h
  | succ m ih =>
    intro k s h hk
    obtain ⟨h1, hk1⟩ := stage_inv_emit_wait pids s k h hk
    unfold wait_rest_loop
    cases o.waitpid k with
    | error b =>
      obtain ⟨h2, hk2⟩ := stage_inv_emit_other pids _ [event.perror "waitpid"] (k + 1)
        h1 hk1 rfl rfl
      exact ih (k + 1) _ h2 hk2
    | ok status => exact ih (k + 1) _ h1 hk1

theorem wait_for_pipeline_loop_stage (o : os) (pids : List Int) :
    ∀ (m k : Nat) (s : wait_state), stage_inv pids s → waits_issued s.now.events = k →
      stage_inv pids (wait_for_pipeline_loop o pids m k s) := by
  intro m
  induction m with
  | zero => intro k s h _; exact h
  | succ m ih =>
    intro k s h hk
    obtain ⟨h1, hk1⟩ := stage_inv_emit_wait pids s k h hk
    unfold wait_for_pipeline_loop
    cases o.waitpid k with
    | error b =>
      obtain ⟨h2, hk2⟩ := stage_inv_emit_other pids _ [event.perror "waitpid"] (k + 1)
        h1 hk1 rfl rfl
      exact ih (k + 1) _ h2 hk2
    | ok status =>
      by_cases hs : status = wstatus.stopped
      · simp only [if_pos hs]
        obtain ⟨h2, hk2⟩ := stage_inv_emit_other pids _ [event.stdout "\n"] (k + 1)
          h1 hk1 rfl rfl
        refine wait_rest_loop_stage o pids m (k + 1) _ ?_ hk2
        exact stage_inv_set_job pids _ _ h2
      · simp only [if_neg hs]
        exact ih (k + 1) _ h1 hk1

/-- In every snapshot of every run of `wait_for_pipeline_completion`, the
waits issued so far are the waits on `pids[0]`, `pids[1]`, ..., one each, in
stage order. -/
theorem wait_for_pipeline_completion_stage (o : os) (n : Nat) (pids : List Int) (jb : job) :
    stage_inv pids (wait_for_pipeline_completion o n pids jb) := by
  have h0 : stage_inv pids
      { now := { jb := jb, events := [] }, job_stopped := false, past := [] } := by
    intro t ht
    have : t = { jb := jb, events := [] } := by
      simpa [wait_state.snapshots] using ht
    subst this
    rfl
  have hl := wait_for_pipeline_loop_stage o pids n 0 _ h0 rfl
  unfold wait_for_pipeline_completion
  simp only
  split
  · obtain ⟨h1, hk1⟩ := stage_inv_emit_other pids _
      [event.killpg (pid_at pids 0) signal.SIGTSTP] _ hl rfl rfl rfl
    exact (stage_inv_emit_other pids _
      (print_job_status_change _ "Stopped") _ h1 hk1 rfl rfl).1
  · exact hl

theorem notice_not_loop_event (status text : String) :
    ¬ is_loop_event (event.stdout (status ++ ": " ++ text ++ "\n")) := by
  rintro (h | h | h)
  · cases h
  · cases h
  · have hlen := congrArg String.length (event.stdout.inj h)
    simp only [String.length_append] at hlen
    have h1 : ": ".length = 2 := rfl
    have h2 : "\n".length = 1 := rfl
    omega

theorem killpg_not_loop_event (pgid : Int) (sig : signal) :
    ¬ is_loop_event (event.killpg pgid sig) := by
  rintro (h | h | h) <;> cases h

/-- The number of waits issued in the states of a run in which stage `i` is
the first to report a stop: at least `i + 1` once the job is marked stopped,
exactly `i + 1` in some such state, and `n` in every state that holds the stop
signal or the "Stopped" notice. -/
theorem wait_for_pipeline_completion_counts (o : os) (pids : List Int) (jb : job)
    (n i : Nat) (hin : i < n)
    (hi : o.waitpid i = wait_result.ok wstatus.stopped)
    (hfirst : ∀ k, k < i → o.waitpid k ≠ wait_result.ok wstatus.stopped)
    (hjb : jb.is_stopped = false) :
    (wait_for_pipeline_completion o n pids jb).now.jb = { jb with is_stopped := true } ∧
    (∀ t ∈ (wait_for_pipeline_completion o n pids jb).snapshots,
      t.jb.is_stopped = true → i + 1 ≤ waits_issued t.events) ∧
    (∃ t ∈ (wait_for_pipeline_completion o n pids jb).snapshots,
      t.jb.is_stopped = true ∧ waits_issued t.events = i + 1) ∧
    (∀ t ∈ (wait_for_pipeline_completion o n pids jb).snapshots,
      (event.killpg (pid_at pids 0) signal.SIGTSTP ∈ t.events ∨
        event.stdout ("Stopped: " ++ print_job_command jb ++ "\n") ∈ t.events) →
      waits_issued t.events = n) ∧
    event.killpg (pid_at pids 0) signal.SIGTSTP ∈
      (wait_for_pipeline_completion o n pids jb).now.events ∧
    event.stdout ("Stopped: " ++ print_job_command jb ++ "\n") ∈
      (wait_for_pipeline_completion o n pids jb).now.events := by
  have h0 : loop_inv jb i 0 false
      { now := { jb := jb, events := [] }, job_stopped := false, past := [] } := by
    refine ⟨rfl, ?_, rfl, ?_, ?_⟩
    · show jb = _
      cases jb
      simp only at hjb
      subst hjb
      rfl
    · intro t ht
      have : t = { jb := jb, events := [] } := by
        simpa [wait_state.snapshots] using ht
      subst this
      refine ⟨fun e he => (by cases he), fun h => ?_⟩
      rw [hjb] at h
      cases h
    · intro h
      cases h
  have hl := wait_for_pipeline_loop_inv o pids jb i hi hfirst n 0 _ (Nat.zero_le i)
    (by omega) h0
  rw [Nat.zero_add] at hl
  obtain ⟨g1, g2, g3, g4, g5⟩ := hl
  have hrun : wait_for_pipeline_completion o n pids jb =
      ((wait_for_pipeline_loop o pids n 0
          { now := { jb := jb, events := [] }, job_stopped := false, past := [] }).emit
        [event.killpg (pid_at pids 0) signal.SIGTSTP]).emit
        [event.stdout ("Stopped: " ++ print_job_command jb ++ "\n")] := by
    unfold wait_for_pipeline_completion
    simp only [g1, if_true, g2]
    rfl
  rw [hrun]
  generalize wait_for_pipeline_loop o pids n 0
    { now := { jb := jb, events := [] }, job_stopped := false, past := [] } = s at *
  have hsnap : ∀ t ∈ ((s.emit [event.killpg (pid_at pids 0) signal.SIGTSTP]).emit
      [event.stdout ("Stopped: " ++ print_job_command jb ++ "\n")]).snapshots,
      t ∈ s.snapshots ∨ (t.jb = s.now.jb ∧ waits_issued t.events = n) := by
    intro t ht
    rw [snapshots_emit, snapshots_emit] at ht
    rcases List.mem_append.mp ht with ht | ht
    · rcases List.mem_append.mp ht with ht | ht
      · exact Or.inl ht
      · rw [List.mem_singleton] at ht
        subst ht
        refine Or.inr ⟨rfl, ?_⟩
        show waits_issued (s.now.events ++ _) = n
        rw [waits_issued_append, g3]
        rfl
    · rw [List.mem_singleton] at ht
      subst ht
      refine Or.inr ⟨rfl, ?_⟩
      show waits_issued ((s.now.events ++ _) ++ _) = n
      rw [waits_issued_append, waits_issued_append, g3]
      rfl
  refine ⟨g2, ?_, ?_, ?_, ?_, ?_⟩
  · intro t ht hs
    rcases hsnap t ht with h | ⟨_, h⟩
    · exact (g4 t h).2 hs
    · omega
  · obtain ⟨t, ht, g⟩ := g5 rfl
    refine ⟨t, ?_, g⟩
    rw [snapshots_emit, snapshots_emit]
    exact List.mem_append_left _ (List.mem_append_left _ ht)
  · intro t ht hev
    rcases hsnap t ht with h | ⟨_, h⟩
    · exfalso
      rcases hev with hev | hev
      · exact killpg_not_loop_event _ _ ((g4 t h).1 _ hev)
      · exact notice_not_loop_event "Stopped" _ ((g4 t h).1 _ hev)
    · exact h
  · show _ ∈ (s.now.events ++ _) ++ _
    simp
  · show _ ∈ (s.now.events ++ _) ++ _
    simp

/-- C10, as the code has it: when stage `i` is the first stage of the job
whose wait reports a stop, `wait_for_pipeline_completion` returns with the job
marked stopped. In every state of the run the waits issued so far are the
waits on `pids[0]`, `pids[1]`, ..., one each, in stage order. `is_stopped` is
set right after the wait on stage `i`, in a state whose waits are those on the
stages `0 .. i` and no other, and never earlier. The stop signal to the
process group and the "Stopped" notice are both issued, and only in states
whose waits are those on all the stages `0 .. n-1`. -/
theorem wait_for_pipeline_completion_stop (o : os) (pids : List Int) (jb : job)
    (n i : Nat) (hin : i < n)
    (hi : o.waitpid i = wait_result.ok wstatus.stopped)
    (hfirst : ∀ k, k < i → o.waitpid k ≠ wait_result.ok wstatus.stopped)
    (hjb : jb.is_stopped = false) :
    (wait_for_pipeline_completion o n pids jb).now.jb = { jb with is_stopped := true } ∧
    (∀ t ∈ (wait_for_pipeline_completion o n pids jb).snapshots,
      waited_pids t.events = (List.range (waits_issued t.events)).map (pid_at pids)) ∧
    (∀ t ∈ (wait_for_pipeline_completion o n pids jb).snapshots,
      t.jb.is_stopped = true → i + 1 ≤ waits_issued t.events) ∧
    (∃ t ∈ (wait_for_pipeline_completion o n pids jb).snapshots,
      t.jb.is_stopped = true ∧ waits_issued t.events = i + 1 ∧
      waited_pids t.events = (List.range (i + 1)).map (pid_at pids)) ∧
    (∀ t ∈ (wait_for_pipeline_completion o n pids jb).snapshots,
      (event.killpg (pid_at pids 0) signal.SIGTSTP ∈ t.events ∨
        event.stdout ("Stopped: " ++ print_job_command jb ++ "\n") ∈ t.events) →
      waits_issued t.events = n ∧
      waited_pids t.events = (List.range n).map (pid_at pids)) ∧
    event.killpg (pid_at pids 0) signal.SIGTSTP ∈
      (wait_for_pipeline_completion o n pids jb).now.events ∧
    event.stdout ("Stopped: " ++ print_job_command jb ++ "\n") ∈
      (wait_for_pipeline_completion o n pids jb).now.events := by
  obtain ⟨c1, c2, c3, c4, c5, c6⟩ :=
    wait_for_pipeline_completion_counts o pids jb n i hin hi hfirst hjb
  have hstage := wait_for_pipeline_completion_stage o n pids jb
  refine ⟨c1, hstage, c2, ?_, ?_, c5, c6⟩
  · obtain ⟨t, ht, hs, hc⟩ := c3
    refine ⟨t, ht, hs, hc, ?_⟩
    have := hstage t ht
    unfold waits_in_stage_order at this
    rw [hc] at this
    exact this
  · intro t ht hev
    have hc := c4 t ht hev
    refine ⟨hc, ?_⟩
    have := hstage t ht
    unfold waits_in_stage_order at this
    rw [hc] at this
    exact this

/-- C10, as the code has it, at a concrete input: two stages with pids 100 and
101, the first of which stops. The job is marked stopped in a state whose only
wait is the one on pid 100; the stop signal and the notice are found only in
states whose waits are those on pid 100 and pid 101. -/
theorem wait_for_pipeline_completion_stop_witness :
    (wait_for_pipeline_completion os_stop_first 2 [100, 101] job_pair).now.jb =
      { job_pair with is_stopped := true } ∧
    (∀ t ∈ (wait_for_pipeline_completion os_stop_first 2 [100, 101] job_pair).snapshots,
      waited_pids t.events =
        (List.range (waits_issued t.events)).map (pid_at [100, 101])) ∧
    (∀ t ∈ (wait_for_pipeline_completion os_stop_first 2 [100, 101] job_pair).snapshots,
      t.jb.is_stopped = true → 0 + 1 ≤ waits_issued t.events) ∧
    (∃ t ∈ (wait_for_pipeline_completion os_stop_first 2 [100, 101] job_pair).snapshots,
      t.jb.is_stopped = true ∧ waits_issued t.events = 0 + 1 ∧
      waited_pids t.events = [100]) ∧
    (∀ t ∈ (wait_for_pipeline_completion os_stop_first 2 [100, 101] job_pair).snapshots,
      (event.killpg (pid_at [100, 101] 0) signal.SIGTSTP ∈ t.events ∨
        event.stdout ("Stopped: " ++ print_job_command job_pair ++ "\n") ∈ t.events) →
      waits_issued t.events = 2 ∧ waited_pids t.events = [100, 101]) ∧
    event.killpg (pid_at [100, 101] 0) signal.SIGTSTP ∈
      (wait_for_pipeline_completion os_stop_first 2 [100, 101] job_pair).now.events ∧
    event.stdout ("Stopped: " ++ print_job_command job_pair ++ "\n") ∈
      (wait_for_pipeline_completion os_stop_first 2 [100, 101] job_pair).now.events :=
  wait_for_pipeline_completion_stop os_stop_first [100, 101] job_pair 2 0 (by decide) rfl
    (fun k hk => absurd hk (Nat.not_lt_zero k)) rfl

/-- C10 as stated fails: in the run on two stages of which the first stops,
there is a state in which the job is marked stopped while only one of the two
waits has been issued, the wait on stage 1 (pid 101) not among them. -/
theorem stopped_before_all_waited :
    2 ≤ job_pair.num_processes ∧
    os_stop_first.waitpid 0 = wait_result.ok wstatus.stopped ∧
    job_pair.is_stopped = false ∧
    ∃ t ∈ (wait_for_pipeline_completion os_stop_first 2 [100, 101] job_pair).snapshots,
      t.jb.is_stopped = true ∧ waits_issued t.events = 1 ∧
      event.waitpid 101 ∉ t.events :=
  ⟨by decide, rfl, rfl,
    { jb := { job_pair with is_stopped := true },
      events := [event.waitpid 100, event.stdout "\n"] },
    by decide, rfl, rfl, by decide⟩

/-! ## Job ids and removal -/

/-- C7 fails on the code (the defect of C8): from the empty table, two
background pipelines are launched and the first is reaped, which leaves the
second job alone, with id 2. A foreground pipeline `ls` whose only stage exits
is then given the id `length + 1 = 2`; on return the removal loop has erased
the first job with id 2, the background job, and the table holds the new job,
marked completed. -/
theorem foreground_erases_other_job :
    run_ops ops_two_launched_one_reaped (initial_shell 1) = some shell_one_left ∧
    shell_one_left.jobs.data = [job_running] ∧
    (os_fork 300).waitpid 0 = wait_result.ok wstatus.exited ∧
    (execute_pipeline (os_fork 300) cmd_ls shell_one_left).map (fun sh => sh.jobs.data) =
      some [{ id := 2, cmd := cmd_ls, pids := [300], is_background := false,
              is_completed := true, is_stopped := false, num_processes := 1 }] ∧
    (execute_pipeline (os_fork 300) cmd_ls shell_one_left).map
        (fun sh => decide (event.free_job job_running ∈ sh.trace)) =
      some true :=
  ⟨rfl, rfl, rfl, rfl, by decide⟩

/-- C8 fails on the code: from the empty table, launch two background
pipelines, reap the first, launch a third. The third job gets the id
`length + 1 = 2`, the id of the job still in the table. -/
theorem job_ids_collide :
    (run_ops
        (ops_two_launched_one_reaped ++
          [op.execute_pipeline (os_fork 300) cmd_sleep_cat])
        (initial_shell 1)).map
      (fun sh => sh.jobs.data.map (fun j => (j.id, j.pids))) =
      some [(2, [200, 201]), (2, [300, 301])] := by
  rfl

/-- C9 fails on the code: a foreground `ls` that stops leaves the stopped job
with id 1 in the table, which holds no completed job; `fg` then continues it
and its only stage exits. When `fg_builtin` returns, the job is still in the
table, with `is_completed` set. -/
theorem fg_keeps_completed_job :
    (run_ops [op.execute_pipeline os_stop_first cmd_ls] (initial_shell 1)).map
        (fun sh => sh.jobs.data) = some [job_stopped] ∧
    job_stopped.is_completed = false ∧
    os_ok.waitpid 0 = wait_result.ok wstatus.exited ∧
    (run_ops [op.execute_pipeline os_stop_first cmd_ls, op.fg_builtin os_ok ["fg"]]
        (initial_shell 1)).map (fun sh => sh.jobs.data) =
      some [{ id := 1, cmd := cmd_ls, pids := [-1], is_background := false,
              is_completed := true, is_stopped := false, num_processes := 1 }] :=
  ⟨rfl, rfl, rfl, rfl⟩

/-! ## Terminal ownership after `fg` -/

/-- When `fg_builtin` resolves a job, standard input is a terminal, the
continue signal is delivered and the final `tcsetpgrp` succeeds, the terminal
owner on return is the shell's own process group. -/
theorem fg_builtin_returns_terminal (o : os) (args : List String) (sh : shell) (i : Nat)
    (curj : job)
    (hres : resolve_job "fg" args sh.jobs = Except.ok (i, curj))
    (htty : o.isatty = true)
    (hkill : 0 ≤ o.killpg (pid_at curj.pids 0) signal.SIGCONT)
    (hset : 0 ≤ o.tcsetpgrp o.getpgrp) :
    (fg_builtin o args sh).1 = true ∧ (fg_builtin o args sh).2.term_owner = o.getpgrp := by
  have hk2 : ¬ o.killpg (pid_at curj.pids 0) signal.SIGCONT < 0 := not_lt.mpr hkill
  have hs2 : ¬ o.tcsetpgrp o.getpgrp < 0 := not_lt.mpr hset
  unfold fg_builtin
  rw [hres]
  simp only [continue_job, if_neg hk2, give_terminal_control, htty, if_neg hs2]
  simp

/-- C11 fails on the code: `fg` with no argument resolves the stopped job with
pid 100 in slot 0 of `shell_two`, hands the terminal to group 100, and the
continue signal fails. `fg_builtin` then returns `false` at once: the terminal
owner on return is 100, not the shell's own process group 1, which owned it
before the call. -/
theorem fg_leaves_terminal_with_job :
    resolve_job "fg" ["fg"] shell_two.jobs = Except.ok (0, job_stopped) ∧
    os_kill_fails.isatty = true ∧
    os_kill_fails.getpgrp = 1 ∧
    shell_two.term_owner = 1 ∧
    (fg_builtin os_kill_fails ["fg"] shell_two).1 = false ∧
    (fg_builtin os_kill_fails ["fg"] shell_two).2.term_owner = 100 ∧
    (fg_builtin os_kill_fails ["fg"] shell_two).2.trace =
      [event.stdout "ls\n", event.stdout "Restarting: ls\n", event.tcsetpgrp 100,
       event.killpg 100 signal.SIGCONT, event.perror "killpg"] :=
  ⟨rfl, rfl, rfl, rfl, rfl, rfl, rfl⟩

/-! ## `bg` without a stopped job -/

/-- C12, as the code has it: in a table in which no job has `is_stopped` set,
`bg_builtin` without a job-id argument returns `false` and leaves the table,
every job and the terminal owner unchanged; its one message on standard error
is "no current job" when every job of the table is completed (an empty table
included), and "job <id> is already running" for the job latest in table
order that is not completed otherwise. -/
theorem bg_builtin_none_stopped (o : os) (args : List String) (sh : shell)
    (hargs : args[1]? = none)
    (hns : ∀ j ∈ sh.jobs.data, j.is_stopped = false) :
    ((∀ j ∈ sh.jobs.data, j.is_completed = true) →
      bg_builtin o args sh =
        (false, { jobs := sh.jobs,
                  trace := sh.trace ++ [event.stderr "bg: no current job\n"],
                  term_owner := sh.term_owner })) ∧
    (∀ (i : Nat) (J : job), sh.jobs.data[i]? = some J → J.is_completed = false →
      (∀ k j, i < k → sh.jobs.data[k]? = some j → j.is_completed = true) →
      bg_builtin o args sh =
        (false, { jobs := sh.jobs,
                  trace := sh.trace ++
                    [event.stderr ("bg: job " ++ toString J.id ++ " is already running\n")],
                  term_owner := sh.term_owner })) := by
  have hnone : last_stopped_loop sh.jobs sh.jobs.length = none :=
    last_stopped_loop_none sh.jobs sh.jobs.length
      (fun k j _ h => hns j (List.getElem?_mem h))
  constructor
  · intro hall
    have hcur : get_current_job sh.jobs = none := by
      unfold get_current_job
      rw [hnone]
      exact last_not_completed_loop_none sh.jobs sh.jobs.length
        (fun k j _ h => hall j (List.getElem?_mem h))
    unfold bg_builtin resolve_job
    rw [hargs]
    simp only [hcur]
    rfl
  · intro i J hJ hc hlast
    have hlt : i < sh.jobs.length := by
      by_contra hk
      rw [List.getElem?_eq_none (Nat.le_of_not_lt hk)] at hJ
      cases hJ
    obtain ⟨i2, j2, h1, h2, h3, h4, h5⟩ :=
      last_not_completed_loop_some sh.jobs sh.jobs.length (Nat.le_refl _)
        ⟨i, J, hlt, hJ, hc⟩
    have hi : i2 = i := by
      rcases Nat.lt_trichotomy i2 i with h | h | h
      · have := h5 i J h hlt hJ
        rw [hc] at this
        cases this
      · exact h
      · have := hlast i2 j2 h h3
        rw [h4] at this
        cases this
    subst hi
    have hj : j2 = J := by
      rw [h3] at hJ
      exact Option.some.inj hJ
    subst hj
    have hcur : get_current_job sh.jobs = some (i2, j2) := by
      unfold get_current_job
      rw [hnone, h1]
    have hrun : j2.is_stopped = false := hns j2 (List.getElem?_mem h3)
    unfold bg_builtin resolve_job
    rw [hargs]
    simp only [hcur, hrun]
    rfl

/-- C12, as the code has it, at concrete inputs: the empty table of
`initial_shell`, and the table of `shell_one_left`, whose only job is
running. -/
theorem bg_builtin_none_stopped_witness :
    bg_builtin os_ok ["bg"] (initial_shell 1) =
      (false, { jobs := (initial_shell 1).jobs,
                trace := (initial_shell 1).trace ++ [event.stderr "bg: no current job\n"],
                term_owner := (initial_shell 1).term_owner }) ∧
    bg_builtin os_ok ["bg"] shell_one_left =
      (false, { jobs := shell_one_left.jobs,
                trace := shell_one_left.trace ++
                  [event.stderr ("bg: job " ++ toString job_running.id
                    ++ " is already running\n")],
                term_owner := shell_one_left.term_owner }) :=
  ⟨(bg_builtin_none_stopped os_ok ["bg"] (initial_shell 1) rfl (by decide)).1 (by decide),
   (bg_builtin_none_stopped os_ok ["bg"] shell_one_left rfl (by decide)).2
      0 job_running rfl rfl
      (fun k j hk h => by
        cases k with
        | zero => exact absurd hk (Nat.lt_irrefl 0)
        | succ n => cases h)⟩

/-- C12 as stated fails: no job of `shell_one_left` is stopped, and `bg`
without an argument reports that job 2 is already running; "no current job"
is not written. -/
theorem bg_reports_already_running :
    (∀ j ∈ shell_one_left.jobs.data, j.is_stopped = false) ∧
    bg_builtin os_ok ["bg"] shell_one_left =
      (false, { jobs := shell_one_left.jobs,
                trace := shell_one_left.trace ++
                  [event.stderr "bg: job 2 is already running\n"],
                term_owner := shell_one_left.term_owner }) ∧
    event.stderr "bg: no current job\n" ∉ (bg_builtin os_ok ["bg"] shell_one_left).2.trace :=
  ⟨by decide, rfl, by decide⟩

/-! ## Completion flag, process group, the two reapers -/

/-- C13 fails on the code, in both directions. Synchronous mode (the defect of
C8): in the table `shell_one_left`, reached from the empty table, a foreground
`ls` with pid 300 that exits leaves its own job in the table with
`is_completed` set and its pid not the sentinel. Asynchronous mode: a
background `sleep 5 &` with pid 100 is launched and then stops; the handler
leaves the job with every pid the sentinel and `is_completed` clear. -/
theorem completed_flag_and_sentinel_differ :
    run_ops ops_two_launched_one_reaped (initial_shell 1) = some shell_one_left ∧
    (execute_pipeline (os_fork 300) cmd_ls shell_one_left).map
        (fun sh => sh.jobs.data.map (fun j => (j.is_completed, j.pids))) =
      some [(true, [300])] ∧
    ((execute_pipeline (os_fork 100) cmd_sleep (initial_shell 1)).bind
        (async_sigchld_handler os_ok [(100, wstatus.stopped)])).map
        (fun sh => sh.jobs.data.map (fun j => (j.is_completed, j.is_stopped, j.pids))) =
      some [(false, true, [-1])] :=
  ⟨rfl, rfl, rfl⟩

/-- C14 fails on the code: `sleep 5 | cat &` is launched with pids 100, 101 and
both stages are put into group 100; stage 0 exits and is reaped, which writes
the sentinel into `pids[0]`; stage 1 stops. The job is in the table, stopped
and not completed. `bg` then signals group -1 and `fg` hands the terminal to
group -1 and signals group -1, not group 100; both calls fail. -/
theorem group_id_lost_with_first_stage :
    (run_ops ops_first_stage_reaped (initial_shell 1)).map
        (fun sh => (sh.jobs.data.map (fun j => (j.pids, j.is_stopped, j.is_completed)),
          sh.trace.take 2)) =
      some ([([-1, 101], true, false)], [event.setpgid 100 100, event.setpgid 101 100]) ∧
    (run_ops (ops_first_stage_reaped ++ [op.bg_builtin os_posix ["bg"]])
        (initial_shell 1)).map (fun sh => sh.trace.drop 9) =
      some [event.killpg (-1) signal.SIGCONT, event.perror "killpg"] ∧
    (run_ops (ops_first_stage_reaped ++ [op.fg_builtin os_posix ["fg"]])
        (initial_shell 1)).map (fun sh => sh.trace.drop 9) =
      some [event.stdout "sleep 5 | cat\n", event.stdout "Restarting: sleep 5 | cat\n",
            event.tcsetpgrp (-1), event.perror "tcsetpgrp",
            event.killpg (-1) signal.SIGCONT, event.perror "killpg"] :=
  ⟨rfl, rfl, rfl⟩

/-- C15 fails on the code: in the table `shell_one_left`, whose job has pids
200, 201, the one child-state change "pid 200 stopped" makes
`update_job_status` set `is_stopped` and keep the pids, and
`async_sigchld_handler` set `is_stopped` and overwrite pid 200 with the
sentinel: the two tables differ. -/
theorem reapers_differ_on_stop :
    (update_job_status [(200, wstatus.stopped)] shell_one_left).map
        (fun sh => sh.jobs.data) =
      some [{ job_running with is_stopped := true }] ∧
    (async_sigchld_handler os_ok [(200, wstatus.stopped)] shell_one_left).map
        (fun sh => sh.jobs.data) =
      some [{ job_running with is_stopped := true, pids := [-1, 201] }] :=
  ⟨rfl, rfl⟩

/-! ## `vec_push_back` -/

theorem vec_resize_copy_eq {α : Type} (has_dtor : Bool) :
    ∀ l : List α, vec_resize_copy has_dtor l = (l, if has_dtor then l else []) := by
  intro l
  induction l with
  | nil => cases has_dtor <;> rfl
  | cons x xs ih =>
    unfold vec_resize_copy
    rw [ih]
    cases has_dtor <;> rfl

/-- What `vec_push_back` does on every vector: the elements are kept in
order, the new one is stored after them, and the destructor is called on
every element already in the vector exactly when the vector is full and has a
destructor. -/
theorem vec_push_back_effect {α : Type} (v : Vec α) (e : α) :
    (vec_push_back v e).1.data = v.data ++ [e] ∧
    (vec_push_back v e).1.length = v.length + 1 ∧
    (vec_push_back v e).2 =
      if v.length = v.capacity ∧ v.has_dtor = true then v.data else [] := by
  unfold vec_push_back vec_resize
  simp only [Vec.length, vec_resize_copy_eq]
  by_cases hfull : v.data.length = v.capacity
  · have hgrow : ¬ (if v.capacity = 0 then 1 else v.capacity * 2) ≤ v.data.length := by
      rw [hfull]
      split <;> omega
    simp only [if_pos hfull, if_neg hgrow]
    cases hd : v.has_dtor <;> simp [hfull]
  · simp only [if_neg hfull]
    simp [hfull]

/-- C16 fails on the code: pushing onto a full vector that has a destructor
calls the destructor on every element already in it. On a vector of two jobs
with capacity 2 the push grows the capacity to 4 and destroys both jobs; in
the job table of the shell, which starts with capacity 10, the eleventh launch
grows the table to capacity 20 and calls `free_job` on the ten jobs in it. -/
theorem vec_push_back_destroys_on_growth :
    vec_push_back
        ({ data := [job_stopped, job_running], capacity := 2, has_dtor := true } : Vec job)
        job_pair =
      ({ data := [job_stopped, job_running, job_pair], capacity := 4, has_dtor := true },
       [job_stopped, job_running]) ∧
    (run_ops ops_eleven_launched (initial_shell 1)).map
        (fun sh => (sh.jobs.length, sh.jobs.capacity,
          ((sh.trace.filter is_free_job).map
            (fun e => match e with
              | event.free_job j => j.id
              | _ => 0)))) =
      some (11, 20, [1, 2, 3, 4, 5, 6, 7, 8, 9, 10]) :=
  ⟨rfl, rfl⟩

end PShell
